import Mathlib

/-!
# Restore: loading a backup archive into the restore index

Shallow embedding of `pkg/controllers/restore/download.go`
(`downloadFromS3`, `LoadFromTarGzip`, `loadDataFromFile`).

Go strings are modelled by Lean strings and handled through their list of
characters.  The substring operations used by the source (`strings.Contains`,
`strings.Split`, `strings.TrimSuffix`) work on bytes in Go; on well-formed
UTF-8 text and a well-formed pattern they agree with the same operation on
code points, which is what is written here.
-/

namespace restore

/-- A Go `error` value, represented by its message. -/
abbrev GoError := String

/-- A Go `[]byte`. -/
abbrev Bytes := List Nat

/-- The bytes of an ASCII text. -/
def bytesOf (s : String) : Bytes := s.data.map Char.toNat

/-! ## The `strings` functions called by the source -/

namespace strings

/-- True when the character list `s` begins with `p`. -/
def startsWith : List Char → List Char → Bool
  | _, [] => true
  | [], _ :: _ => false
  | c :: s, d :: p => decide (c = d) && startsWith s p

/-- True when `sub` occurs somewhere inside `s`. -/
def containsL (sub : List Char) : List Char → Bool
  | [] => startsWith [] sub
  | c :: cs => startsWith (c :: cs) sub || containsL sub cs

/-- Go `strings.Contains(s, substr)`. -/
def Contains (s substr : String) : Bool := containsL substr.data s.data

/-- Go `strings.HasSuffix(s, suffix)`:
`len(s) >= len(suffix) && s[len(s)-len(suffix):] == suffix`. -/
def HasSuffix (s suffix : String) : Bool :=
  decide (suffix.data.length ≤ s.data.length) &&
    decide (s.data.drop (s.data.length - suffix.data.length) = suffix.data)

/-- Go `strings.TrimSuffix(s, suffix)`: `s` without the trailing `suffix`
when it has one, `s` itself otherwise. -/
def TrimSuffix (s suffix : String) : String :=
  if HasSuffix s suffix then ⟨s.data.take (s.data.length - suffix.data.length)⟩ else s

/-- Worker of `Split` for a non-empty separator: `skip` counts the characters
of a separator occurrence that are still to be passed over. -/
def splitGo (sep : List Char) : List Char → Nat → List (List Char)
  | [], _ => [[]]
  | _ :: cs, skip + 1 => splitGo sep cs skip
  | c :: cs, 0 =>
    if startsWith (c :: cs) sep then [] :: splitGo sep cs (sep.length - 1)
    else
      match splitGo sep cs 0 with
      | [] => [[c]]
      | seg :: rest => (c :: seg) :: rest

/-- Go `strings.Split(s, sep)` for a non-empty separator: the pieces of `s`
between the successive (leftmost, non-overlapping) occurrences of `sep`; a
string without `sep` gives the one-element slice `[s]`. -/
def Split (s sep : String) : List String :=
  (splitGo sep.data s.data 0).map String.mk

/-- Simple case folding of a rune, on the folding orbits of the ASCII
letters: `A`-`Z` with `a`-`z`, U+212A KELVIN SIGN with `k`, U+017F LATIN SMALL
LETTER LONG S with `s`.  Every other rune is its own representative here. -/
def foldRune (c : Char) : Nat :=
  if 65 ≤ c.toNat ∧ c.toNat ≤ 90 then c.toNat + 32
  else if c.toNat = 0x212A then 107
  else if c.toNat = 0x017F then 115
  else c.toNat

/-- Go `strings.EqualFold(s, t)`: equality under Unicode simple case
folding.  The source calls it with an ASCII constant, so only the orbits of
the ASCII letters matter and those are the ones `foldRune` tabulates. -/
def EqualFold (s t : String) : Bool :=
  decide (s.data.map foldRune = t.data.map foldRune)

end strings

/-! ## Kubernetes and archive types -/

/-- Type `schema.GroupVersionResource`. -/
structure GroupVersionResource where
  Group : String
  Version : String
  Resource : String
  deriving DecidableEq, Repr

/-- Type `schema.GroupResource`. -/
structure GroupResource where
  Group : String
  Resource : String
  deriving DecidableEq, Repr

/-- Method `GroupVersionResource.GroupResource()`. -/
def GroupVersionResource.GroupResource (gvr : GroupVersionResource) : GroupResource :=
  { Group := gvr.Group, Resource := gvr.Resource }

/-- Type `objInfo`, the key of the three output maps. -/
structure objInfo where
  Name : String
  Namespace : String
  GVR : GroupVersionResource
  ConfigPath : String
  deriving DecidableEq, Repr

/-- A `value.Transformer`, by its `TransformFromStorage(data, context)`: the
context is `value.DefaultContext(additionalAuthenticatedData)`, given here by
the authenticated-data string it wraps. -/
abbrev Transformer := Bytes → String → Except GoError Bytes

/-- The `map[schema.GroupResource]value.Transformer` argument: `none` is a
missing key, which Go reads as the nil transformer. -/
abbrev TransformerMap := GroupResource → Option Transformer

/-- Constant `tar.TypeReg`, the flag of a regular file (the character `0`). -/
def TypeReg : Nat := 48

/-- The fields of `tar.Header` the source reads. -/
structure Header where
  Name : String
  Typeflag : Nat
  deriving DecidableEq, Repr

/-- The fields of `v1.S3ObjectStore` read by `downloadFromS3`; the connection
and credential fields are used by the object-store client only. -/
structure v1.S3ObjectStore where
  Folder : String
  BucketName : String
  deriving DecidableEq, Repr

/-- Type `v1.RestoreSpec`, the field read by `downloadFromS3`. -/
structure v1.RestoreSpec where
  BackupFilename : String
  deriving DecidableEq, Repr

/-- Type `v1.Restore`. -/
structure v1.Restore where
  Spec : v1.RestoreSpec
  deriving DecidableEq, Repr

/-- The two functions of package `objectstore` that `downloadFromS3` calls.
`GetS3Client` also receives the handler's context and dynamic client, which
are fixed for a handler and are part of the function here. -/
structure ObjectStore (Client : Type) where
  GetS3Client : v1.S3ObjectStore → String → Except GoError Client
  DownloadFromS3WithPrefix : Client → String → String → Except GoError String

/-- A call made to package `objectstore`, with its arguments. -/
inductive S3Call where
  | getS3Client (objStore : v1.S3ObjectStore) (ns : String)
  | downloadFromS3WithPrefix (pfx : String) (bucket : String)
  deriving DecidableEq, Repr

/-- One step of the tar reader: `tarball.Next()` fails, or it gives a header
and `ioutil.ReadAll(tarball)` then gives the body or fails.  The end of the
list is `io.EOF`. -/
inductive TarRecord where
  | nextError (e : GoError)
  | file (hdr : Header) (body : Except GoError Bytes)

/-- What the source needs from outside this file: the resolver `getGVR` of
this package and the three uses of `json.Unmarshal`.  Decoding into a
fresh variable either fails or gives the decoded value; decoding into a field of
the handler gives the field after the call (which Go may have changed even
when it reports an error) and the error, if any.  `openTarGz` is `os.Open`
followed by `gzip.NewReader` and `tar.NewReader`: the outer result is that of
`os.Open`, the inner one that of `gzip.NewReader`. -/
structure Env (Obj RS SS : Type) where
  getGVR : String → GroupVersionResource
  unmarshalBytes : Bytes → Except GoError Bytes
  unmarshalObject : Bytes → Except GoError Obj
  unmarshalResourceSet : Bytes → RS → RS × Option GoError
  unmarshalStatusSubresource : Bytes → SS → SS × Option GoError
  openTarGz : String → Except GoError (Except GoError (List TarRecord))

/-- The fields of `handler` the source touches.  The maps are initialised by
the caller (a Go write to a nil map panics).  `transformCalls` is not a Go
field: it records, in order, each call of `TransformFromStorage` with the
resource type, the ciphertext and the authenticated data it was given. -/
structure handler (Obj RS SS : Type) where
  crdInfoToData : objInfo → Option Obj
  clusterscopedResourceInfoToData : objInfo → Option Obj
  namespacedResourceInfoToData : objInfo → Option Obj
  resourcesFromBackup : String → Bool
  backupResourceSet : RS
  resourcesWithStatusSubresource : SS
  transformCalls : List (GroupResource × Bytes × String)

/-- How a call ends: it returns `nil`, it returns an error, or it panics (an
index out of range).  Each carries the handler as the call left it. -/
inductive Outcome (σ : Type) where
  | ok (h : σ)
  | error (e : GoError) (h : σ)
  | panic (h : σ)

/-- The handler a call left behind. -/
def Outcome.state {σ : Type} : Outcome σ → σ
  | .ok h => h
  | .error _ h => h
  | .panic h => h

/-- The error a call returned, if it returned one. -/
def Outcome.err? {σ : Type} : Outcome σ → Option GoError
  | .error e _ => some e
  | _ => none

/-- True when the call returned `nil`. -/
def Outcome.isOk {σ : Type} : Outcome σ → Bool
  | .ok _ => true
  | _ => false

/-- True when the call panicked. -/
def Outcome.isPanic {σ : Type} : Outcome σ → Bool
  | .panic _ => true
  | _ => false

/-- The local variables of `loadDataFromFile` computed from the entry path
(lines 96-107). -/
structure PathFields where
  name : String
  ns : String
  additionalAuthenticatedData : String
  gvrStr : String
  deriving DecidableEq, Repr

/-! ## The functions of `download.go` -/

/-- Function `downloadFromS3`: the returned value and the calls made to
package `objectstore`, in order.  (The `fmt.Printf` of the first line writes
to standard output, which is not modelled.) -/
def downloadFromS3 {Client : Type} (store : ObjectStore Client) (restore : v1.Restore)
    (objStore : v1.S3ObjectStore) (ns : String) : Except GoError String × List S3Call :=
  match store.GetS3Client objStore ns with
  | .error err => (.error err, [.getS3Client objStore ns])
  | .ok s3Client =>
    let pfx := restore.Spec.BackupFilename
    if pfx.data.length = 0 then
      (.error "empty backup name", [.getS3Client objStore ns])
    else
      let folder := objStore.Folder
      let pfx := if folder.data.length ≠ 0 then folder ++ "/" ++ pfx else pfx
      match store.DownloadFromS3WithPrefix s3Client pfx objStore.BucketName with
      | .error err =>
        (.error err, [.getS3Client objStore ns, .downloadFromS3WithPrefix pfx objStore.BucketName])
      | .ok targetFileLocation =>
        (.ok targetFileLocation,
          [.getS3Client objStore ns, .downloadFromS3WithPrefix pfx objStore.BucketName])

/-- Lines 96-107 of `loadDataFromFile`: split the entry path and read the
name, the namespace, the authenticated data and the resource-type token off
the segments.  `none` is the Go panic of an index out of range. -/
def pathFields (path : String) : Option PathFields := do
  let splitPath := strings.Split path "/"
  let (name, ns, additionalAuthenticatedData) ←
    if splitPath.length = 2 then do
      let name := strings.TrimSuffix (← splitPath[1]?) ".json"
      pure (name, "", name)
    else do
      let name := strings.TrimSuffix (← splitPath[2]?) ".json"
      let ns ← splitPath[1]?
      pure (name, ns, ns ++ "#" ++ name)
  let gvrStr ← splitPath[0]?
  pure { name := name, ns := ns,
         additionalAuthenticatedData := additionalAuthenticatedData, gvrStr := gvrStr }

section
variable {Obj RS SS : Type}

/-- Lines 122-142 of `loadDataFromFile`: decode the (clear) bytes as a JSON
object and store it under the entry's `objInfo` in the map chosen by the
resource and the namespace. -/
def indexData (env : Env Obj RS SS) (h : handler Obj RS SS) (path : String)
    (f : PathFields) (gvr : GroupVersionResource) (readData : Bytes) :
    Outcome (handler Obj RS SS) :=
  match env.unmarshalObject readData with
  | .error err => .error err h
  | .ok fileMap =>
    let info : objInfo := { Name := f.name, GVR := gvr, ConfigPath := path, Namespace := "" }
    if strings.EqualFold gvr.Resource "customresourcedefinitions" then
      .ok { h with crdInfoToData := Function.update h.crdInfoToData info (some fileMap) }
    else if f.ns ≠ "" then
      let info := { info with Namespace := f.ns }
      .ok { h with namespacedResourceInfoToData :=
                     Function.update h.namespacedResourceInfoToData info (some fileMap) }
    else
      .ok { h with clusterscopedResourceInfoToData :=
                     Function.update h.clusterscopedResourceInfoToData info (some fileMap) }

/-- Function `loadDataFromFile`. -/
def loadDataFromFile (env : Env Obj RS SS) (h : handler Obj RS SS)
    (tarContent : Header) (readData : Bytes) (transformerMap : TransformerMap) :
    Outcome (handler Obj RS SS) :=
  let h := { h with resourcesFromBackup :=
                      Function.update h.resourcesFromBackup tarContent.Name true }
  match pathFields tarContent.Name with
  | none => .panic h
  | some f =>
    let gvr := env.getGVR f.gvrStr
    match transformerMap gvr.GroupResource with
    | some decryptionTransformer =>
      match env.unmarshalBytes readData with
      | .error err => .error err h
      | .ok encryptedBytes =>
        let h := { h with transformCalls := h.transformCalls ++
                     [(gvr.GroupResource, encryptedBytes, f.additionalAuthenticatedData)] }
        match decryptionTransformer encryptedBytes f.additionalAuthenticatedData with
        | .error err => .error err h
        | .ok decrypted => indexData env h tarContent.Name f gvr decrypted
    | none => indexData env h tarContent.Name f gvr readData

/-- Lines 70-79 of `LoadFromTarGzip`: an entry whose path contains `filters`
is decoded into `backupResourceSet` when the path contains `filters.json`,
and into `resourcesWithStatusSubresource` when it contains
`statussubresource.json`. -/
def loadControlFile (env : Env Obj RS SS) (h : handler Obj RS SS) (tarContent : Header)
    (readData : Bytes) : Outcome (handler Obj RS SS) :=
  let r :=
    if strings.Contains tarContent.Name "filters.json" then
      env.unmarshalResourceSet readData h.backupResourceSet
    else (h.backupResourceSet, none)
  let h := { h with backupResourceSet := r.1 }
  match r.2 with
  | some err => .error ("error unmarshaling backup filters file: " ++ err) h
  | none =>
    let r :=
      if strings.Contains tarContent.Name "statussubresource.json" then
        env.unmarshalStatusSubresource readData h.resourcesWithStatusSubresource
      else (h.resourcesWithStatusSubresource, none)
    let h := { h with resourcesWithStatusSubresource := r.1 }
    match r.2 with
    | some err => .error ("error unmarshaling status subresource info file: " ++ err) h
    | none => .ok h

/-- The body of the loop of `LoadFromTarGzip` (lines 55-87) for one step of
the tar reader; `ok` is the case where the loop goes on. -/
def loadRecord (env : Env Obj RS SS) (transformerMap : TransformerMap)
    (h : handler Obj RS SS) : TarRecord → Outcome (handler Obj RS SS)
  | .nextError err => .error err h
  | .file tarContent body =>
    if tarContent.Typeflag ≠ TypeReg then .ok h
    else
      match body with
      | .error err => .error err h
      | .ok readData =>
        if strings.Contains tarContent.Name "filters" then
          loadControlFile env h tarContent readData
        else loadDataFromFile env h tarContent readData transformerMap

/-- The loop of `LoadFromTarGzip` (lines 54-88) over the steps of the tar
reader: it ends with `nil` at the end of the stream and with the first error
otherwise. -/
def loadRecords (env : Env Obj RS SS) (transformerMap : TransformerMap) :
    handler Obj RS SS → List TarRecord → Outcome (handler Obj RS SS)
  | h, [] => .ok h
  | h, r :: rs =>
    match loadRecord env transformerMap h r with
    | .ok h => loadRecords env transformerMap h rs
    | .error err h => .error err h
    | .panic h => .panic h

/-- Function `LoadFromTarGzip`. -/
def LoadFromTarGzip (env : Env Obj RS SS) (h : handler Obj RS SS)
    (tarGzFilePath : String) (transformerMap : TransformerMap) :
    Outcome (handler Obj RS SS) :=
  match env.openTarGz tarGzFilePath with
  | .error err => .error ("error opening tar.gz backup fike " ++ err) h
  | .ok (.error err) => .error err h
  | .ok (.ok tarball) => loadRecords env transformerMap h tarball

end

/-! ## The three output maps as one partitioned index

These definitions are used to state and prove the invariant of the load. -/

/-- The three output maps. -/
inductive Partition where
  | crd
  | namespaced
  | clusterscoped
  deriving DecidableEq, Repr

section
variable {Obj RS SS : Type}

/-- The output map of a handler for a partition. -/
def handler.part (h : handler Obj RS SS) : Partition → objInfo → Option Obj
  | .crd => h.crdInfoToData
  | .namespaced => h.namespacedResourceInfoToData
  | .clusterscoped => h.clusterscopedResourceInfoToData

/-- The Go assignment `m[k] = v` on the output map of a partition. -/
def handler.put (h : handler Obj RS SS) (p : Partition) (k : objInfo) (v : Obj) :
    handler Obj RS SS :=
  match p with
  | .crd => { h with crdInfoToData := Function.update h.crdInfoToData k (some v) }
  | .namespaced =>
    { h with namespacedResourceInfoToData :=
               Function.update h.namespacedResourceInfoToData k (some v) }
  | .clusterscoped =>
    { h with clusterscopedResourceInfoToData :=
               Function.update h.clusterscopedResourceInfoToData k (some v) }

/-- The partition and the key chosen by lines 127-141 of `loadDataFromFile`
for an entry with the given path, path fields and resource type. -/
def placeKey (gvr : GroupVersionResource) (f : PathFields) (path : String) :
    Partition × objInfo :=
  if strings.EqualFold gvr.Resource "customresourcedefinitions" then
    (.crd, { Name := f.name, Namespace := "", GVR := gvr, ConfigPath := path })
  else if f.ns ≠ "" then
    (.namespaced, { Name := f.name, Namespace := f.ns, GVR := gvr, ConfigPath := path })
  else
    (.clusterscoped, { Name := f.name, Namespace := "", GVR := gvr, ConfigPath := path })

/-- The partition and the key of the entry with the given path, when the
path has the segments `loadDataFromFile` reads. -/
def entryKey (env : Env Obj RS SS) (path : String) : Option (Partition × objInfo) :=
  (pathFields path).map fun f => placeKey (env.getGVR f.gvrStr) f path

/-- Every key of an output map is the key `loadDataFromFile` builds for the
key's own `ConfigPath`, and it lies in the map chosen for that path. -/
def Indexed (env : Env Obj RS SS) (h : handler Obj RS SS) : Prop :=
  ∀ (p : Partition) (k : objInfo), h.part p k ≠ none → entryKey env k.ConfigPath = some (p, k)

/-- The handler after `h.resourcesFromBackup[path] = true`. -/
def handler.markSeen (h : handler Obj RS SS) (path : String) : handler Obj RS SS :=
  { h with resourcesFromBackup := Function.update h.resourcesFromBackup path true }

end

/-! ## A concrete environment, used to run the functions on examples -/

/-- Modelled from the spec: the resolver `getGVR` of this package, which is
not in `download.go`.  A resource-type token has the form
`<resource>.<group>#<version>` (`<resource>.#<version>` for the core group):
the version follows the `#`, the resource is what precedes the first `.` and
the group is what follows it. -/
def specGVR (token : String) : GroupVersionResource :=
  let parts := strings.Split token "#"
  let names := strings.Split (parts.headD "") "."
  { Group := String.intercalate "." names.tail,
    Version := parts.getD 1 "",
    Resource := names.headD "" }

/-- A stand-in for decoding a JSON object: a text in braces is accepted and
the decoded value is represented by the text itself. -/
def demoObject (b : Bytes) : Except GoError Bytes :=
  if b.head? = some 123 ∧ b.getLast? = some 125 then .ok b
  else .error "json: cannot unmarshal into a JSON object"

/-- A stand-in for decoding a JSON string into `[]byte`: a text in double
quotes is accepted and gives the bytes between the quotes. -/
def demoBytes (b : Bytes) : Except GoError Bytes :=
  if b.head? = some 34 ∧ b.getLast? = some 34 ∧ 2 ≤ b.length then .ok (b.tail.dropLast)
  else .error "json: cannot unmarshal into a byte slice"

/-- A stand-in for decoding into a handler field: an accepted text replaces
the field, a rejected one leaves it as it was and reports the error. -/
def demoInto (b : Bytes) (old : Option Bytes) : Option Bytes × Option GoError :=
  match demoObject b with
  | .ok v => (some v, none)
  | .error e => (old, some e)

/-- A handler with empty maps and empty accumulators. -/
def emptyHandler : handler Bytes (Option Bytes) (Option Bytes) :=
  { crdInfoToData := fun _ => none,
    clusterscopedResourceInfoToData := fun _ => none,
    namespacedResourceInfoToData := fun _ => none,
    resourcesFromBackup := fun _ => false,
    backupResourceSet := none,
    resourcesWithStatusSubresource := none,
    transformCalls := [] }

/-- An environment in which the file `backup.tar.gz` holds the given
archive and no other file exists. -/
def demoEnv (archive : List TarRecord) : Env Bytes (Option Bytes) (Option Bytes) :=
  { getGVR := specGVR,
    unmarshalBytes := demoBytes,
    unmarshalObject := demoObject,
    unmarshalResourceSet := demoInto,
    unmarshalStatusSubresource := demoInto,
    openTarGz := fun p =>
      if p = "backup.tar.gz" then .ok (.ok archive) else .error "no such file or directory" }

/-- The header of a regular file with the given path. -/
def regularHeader (name : String) : Header := { Name := name, Typeflag := TypeReg }

/-- A regular-file record with an ASCII body. -/
def regularFile (name body : String) : TarRecord :=
  .file (regularHeader name) (.ok (bytesOf body))

/-- An archive with the filter set, a service account, a user and a custom
resource definition. -/
def demoArchive : List TarRecord :=
  [ regularFile "filters/filters.json" "\x7b\"included\":[\"pods\"]\x7d",
    regularFile "serviceaccounts.#v1/cattle-system/cattle.json"
      "\x7b\"kind\":\"ServiceAccount\",\"metadata\":\x7b\"name\":\"cattle\"\x7d\x7d",
    regularFile "users.management.cattle.io#v3/u-lqx8j.json" "\x7b\"kind\":\"User\"\x7d",
    regularFile "customresourcedefinitions.apiextensions.k8s.io#v1/foos.example.com.json"
      "\x7b\"kind\":\"CustomResourceDefinition\"\x7d" ]

/-- An archive whose second entry has a body that is not a JSON object. -/
def brokenArchive : List TarRecord :=
  [ regularFile "serviceaccounts.#v1/cattle-system/cattle.json"
      "\x7b\"kind\":\"ServiceAccount\"\x7d",
    regularFile "users.management.cattle.io#v3/u-lqx8j.json" "not json",
    regularFile "users.management.cattle.io#v3/u-b4qkh.json" "\x7b\"kind\":\"User\"\x7d" ]

/-- An archive with one resource whose type name contains `filters`. -/
def envoyFilterArchive : List TarRecord :=
  [ regularFile "envoyfilters.networking.istio.io#v1alpha3/istio-system/gzip.json"
      "\x7b\"kind\":\"EnvoyFilter\"\x7d" ]

/-- An object store whose client cannot be built: the credentials secret
is missing. -/
def failingStore : ObjectStore Unit :=
  { GetS3Client := fun _ _ => .error "secrets \"s3-creds\" not found",
    DownloadFromS3WithPrefix := fun _ pfx _ => .ok ("/tmp/" ++ pfx) }

/-- An object store whose client is built and whose downloads succeed. -/
def workingStore : ObjectStore Unit :=
  { GetS3Client := fun _ _ => .ok (),
    DownloadFromS3WithPrefix := fun _ pfx _ => .ok ("/tmp/" ++ pfx) }

/-- A restore whose backup file name is empty. -/
def unnamedRestore : v1.Restore := { Spec := { BackupFilename := "" } }

/-- A bucket without folder. -/
def demoBucket : v1.S3ObjectStore := { Folder := "", BucketName := "rancher-backups" }

/-- The transformer map with no transformer at all. -/
def noTransformers : TransformerMap := fun _ => none

/-- A transformer that accepts a ciphertext only under the authenticated
data `cattle-system#cattle` and gives a fixed JSON object as clear text. -/
def demoTransformer : Transformer := fun _ ctx =>
  if ctx = "cattle-system#cattle" then .ok (bytesOf "\x7b\"kind\":\"Secret\"\x7d")
  else .error "authentication failed"

/-- The transformer map with `demoTransformer` for core `secrets`. -/
def secretTransformers : TransformerMap := fun gr =>
  if gr = { Group := "", Resource := "secrets" } then some demoTransformer else none

/-! ## Lemmas on the string functions and on the path fields -/

theorem pathFields_of_two (path ty file : String) (h : strings.Split path "/" = [ty, file]) :
    pathFields path = some
      { name := strings.TrimSuffix file ".json", ns := "",
        additionalAuthenticatedData := strings.TrimSuffix file ".json", gvrStr := ty } := by
  simp [pathFields, h]

theorem pathFields_of_three (path ty ns file : String) (rest : List String)
    (h : strings.Split path "/" = ty :: ns :: file :: rest) :
    pathFields path = some
      { name := strings.TrimSuffix file ".json", ns := ns,
        additionalAuthenticatedData := ns ++ "#" ++ strings.TrimSuffix file ".json",
        gvrStr := ty } := by
  simp [pathFields, h]

theorem pathFields_of_one (path seg : String) (h : strings.Split path "/" = [seg]) :
    pathFields path = none := by
  simp [pathFields, h]

theorem pathFields_of_nil (path : String) (h : strings.Split path "/" = []) :
    pathFields path = none := by
  simp [pathFields, h]

theorem TrimSuffix_append (n suffix : String) :
    strings.TrimSuffix (n ++ suffix) suffix = n := by
  simp [strings.TrimSuffix, strings.HasSuffix]

theorem TrimSuffix_of_not_HasSuffix (s suffix : String) (h : strings.HasSuffix s suffix = false) :
    strings.TrimSuffix s suffix = s := by
  simp [strings.TrimSuffix, h]

theorem startsWith_slash_cons (c : Char) (cs : List Char) :
    strings.startsWith (c :: cs) ['/'] = decide (c = '/') := by
  cases cs <;> simp [strings.startsWith]

theorem splitGo_slash_free (s : List Char) (h : '/' ∉ s) :
    strings.splitGo ['/'] s 0 = [s] := by
  induction s with
  | nil => rfl
  | cons c cs ih =>
    have hc : c ≠ '/' := fun e => h (by simp [e])
    have hcs : '/' ∉ cs := fun e => h (by simp [e])
    simp [strings.splitGo, startsWith_slash_cons, hc, ih hcs]

theorem splitGo_slash_append (s rest : List Char) (h : '/' ∉ s) :
    strings.splitGo ['/'] (s ++ '/' :: rest) 0 = s :: strings.splitGo ['/'] rest 0 := by
  induction s with
  | nil => simp [strings.splitGo, strings.startsWith]
  | cons c cs ih =>
    have hc : c ≠ '/' := fun e => h (by simp [e])
    have hcs : '/' ∉ cs := fun e => h (by simp [e])
    simp [strings.splitGo, startsWith_slash_cons, hc, ih hcs]

theorem Split_two_segments (ty file : String) (hty : '/' ∉ ty.data) (hfile : '/' ∉ file.data) :
    strings.Split (ty ++ "/" ++ file) "/" = [ty, file] := by
  have h := splitGo_slash_append ty.data file.data hty
  simp [strings.Split, h, splitGo_slash_free file.data hfile]

theorem Split_three_segments (ty ns file : String) (hty : '/' ∉ ty.data)
    (hns : '/' ∉ ns.data) (hfile : '/' ∉ file.data) :
    strings.Split (ty ++ "/" ++ ns ++ "/" ++ file) "/" = [ty, ns, file] := by
  have h1 := splitGo_slash_append ty.data (ns.data ++ '/' :: file.data) hty
  have h2 := splitGo_slash_append ns.data file.data hns
  simp [strings.Split, h1, h2, splitGo_slash_free file.data hfile]

theorem Split_ne_nil (s sep : String) : strings.Split s sep ≠ [] := by
  have key : ∀ (l : List Char) (k : Nat), strings.splitGo sep.data l k ≠ [] := by
    intro l
    induction l with
    | nil => intro k; simp [strings.splitGo]
    | cons c cs ih =>
      intro k
      cases k with
      | zero =>
        simp only [strings.splitGo]
        split
        · simp
        · split <;> simp
      | succ k => simpa [strings.splitGo] using ih k
  simpa [strings.Split] using key s.data 0

section
variable {Obj RS SS : Type}

theorem indexData_transformCalls (env : Env Obj RS SS) (h : handler Obj RS SS) (path : String)
    (f : PathFields) (gvr : GroupVersionResource) (data : Bytes) :
    (indexData env h path f gvr data).state.transformCalls = h.transformCalls := by
  unfold indexData
  split
  · rfl
  · split_ifs <;> rfl

theorem loadDataFromFile_transformCalls (env : Env Obj RS SS) (h : handler Obj RS SS)
    (tarContent : Header) (data enc : Bytes) (tm : TransformerMap) (f : PathFields)
    (t : Transformer) (hf : pathFields tarContent.Name = some f)
    (ht : tm (env.getGVR f.gvrStr).GroupResource = some t)
    (henc : env.unmarshalBytes data = .ok enc) :
    (loadDataFromFile env h tarContent data tm).state.transformCalls =
      h.transformCalls ++
        [((env.getGVR f.gvrStr).GroupResource, enc, f.additionalAuthenticatedData)] := by
  simp only [loadDataFromFile, hf, ht, henc]
  split
  · rfl
  · rw [indexData_transformCalls]

end

/-! ## Reading the fields off the entry path -/

/-- C2: when the entry path splits on `/` into exactly the two segments
`[ty, file]`, `loadDataFromFile` takes as name `file` without one trailing
`.json` (the whole of `file` when it does not end in `.json`), leaves
the namespace empty, takes `ty` as the resource-type token and the name as the
authenticated data; and that name is the context given to the transformer
when one is registered for the resource type. -/
theorem cluster_scoped_path_fields (path ty file : String)
    (hsplit : strings.Split path "/" = [ty, file]) :
    pathFields path = some
        { name := strings.TrimSuffix file ".json", ns := "",
          additionalAuthenticatedData := strings.TrimSuffix file ".json", gvrStr := ty } ∧
      (∀ n : String, file = n ++ ".json" → strings.TrimSuffix file ".json" = n) ∧
      (strings.HasSuffix file ".json" = false → strings.TrimSuffix file ".json" = file) ∧
      ∀ (Obj RS SS : Type) (env : Env Obj RS SS) (h : handler Obj RS SS) (tarContent : Header)
        (readData enc : Bytes) (transformerMap : TransformerMap) (t : Transformer),
        tarContent.Name = path →
        transformerMap (env.getGVR ty).GroupResource = some t →
        env.unmarshalBytes readData = .ok enc →
        (loadDataFromFile env h tarContent readData transformerMap).state.transformCalls =
          h.transformCalls ++
            [((env.getGVR ty).GroupResource, enc, strings.TrimSuffix file ".json")] := by
  have hf := pathFields_of_two path ty file hsplit
  refine ⟨hf, ?_, TrimSuffix_of_not_HasSuffix file ".json", ?_⟩
  · intro n hn
    rw [hn, TrimSuffix_append]
  · intro Obj RS SS env h tarContent readData enc transformerMap t hname ht henc
    subst hname
    exact loadDataFromFile_transformCalls env h tarContent readData enc transformerMap _ t hf ht henc

/-- C2, on the path `users.management.cattle.io#v3/u-lqx8j.json`: the name
and the authenticated data are `u-lqx8j` and the namespace is empty. -/
theorem cluster_scoped_path_fields_witness :
    strings.Split "users.management.cattle.io#v3/u-lqx8j.json" "/" =
        ["users.management.cattle.io#v3", "u-lqx8j.json"] ∧
      pathFields "users.management.cattle.io#v3/u-lqx8j.json" = some
        { name := "u-lqx8j", ns := "", additionalAuthenticatedData := "u-lqx8j",
          gvrStr := "users.management.cattle.io#v3" } :=
  ⟨by decide,
   (cluster_scoped_path_fields "users.management.cattle.io#v3/u-lqx8j.json"
      "users.management.cattle.io#v3" "u-lqx8j.json" (by decide)).1.trans (by decide)⟩

/-- C3: for the entry path `ty/ns/name.json` (no `/` inside `ty`, `ns` or
`name`), the path splits into three segments and `loadDataFromFile` takes
`ns` as namespace, `name` as name, `ty` as resource-type token and
`ns#name` as authenticated data; and that string is the context given to the
transformer when one is registered for the resource type. -/
theorem namespaced_path_fields (ty ns name : String) (hty : '/' ∉ ty.data)
    (hns : '/' ∉ ns.data) (hname : '/' ∉ name.data) :
    strings.Split (ty ++ "/" ++ ns ++ "/" ++ (name ++ ".json")) "/" =
        [ty, ns, name ++ ".json"] ∧
      pathFields (ty ++ "/" ++ ns ++ "/" ++ (name ++ ".json")) = some
        { name := name, ns := ns, additionalAuthenticatedData := ns ++ "#" ++ name,
          gvrStr := ty } ∧
      ∀ (Obj RS SS : Type) (env : Env Obj RS SS) (h : handler Obj RS SS) (tarContent : Header)
        (readData enc : Bytes) (transformerMap : TransformerMap) (t : Transformer),
        tarContent.Name = ty ++ "/" ++ ns ++ "/" ++ (name ++ ".json") →
        transformerMap (env.getGVR ty).GroupResource = some t →
        env.unmarshalBytes readData = .ok enc →
        (loadDataFromFile env h tarContent readData transformerMap).state.transformCalls =
          h.transformCalls ++ [((env.getGVR ty).GroupResource, enc, ns ++ "#" ++ name)] := by
  have hfile : '/' ∉ (name ++ ".json").data := by
    simp only [String.data_append, List.mem_append, not_or]
    exact ⟨hname, by decide⟩
  have hsplit := Split_three_segments ty ns (name ++ ".json") hty hns hfile
  have hf := pathFields_of_three _ ty ns (name ++ ".json") [] hsplit
  rw [TrimSuffix_append] at hf
  refine ⟨hsplit, hf, ?_⟩
  intro Obj RS SS env h tarContent readData enc transformerMap t hpath ht henc
  rw [← hpath] at hf
  exact loadDataFromFile_transformCalls env h tarContent readData enc transformerMap _ t hf ht henc

/-- C3, on the path `serviceaccounts.#v1/cattle-system/cattle.json`:
the namespace is `cattle-system`, the name `cattle` and the authenticated data
`cattle-system#cattle`. -/
theorem namespaced_path_fields_witness :
    ('/' ∉ "serviceaccounts.#v1".data ∧ '/' ∉ "cattle-system".data ∧ '/' ∉ "cattle".data) ∧
      pathFields "serviceaccounts.#v1/cattle-system/cattle.json" = some
        { name := "cattle", ns := "cattle-system",
          additionalAuthenticatedData := "cattle-system#cattle",
          gvrStr := "serviceaccounts.#v1" } :=
  ⟨by decide,
   (namespaced_path_fields "serviceaccounts.#v1" "cattle-system" "cattle"
      (by decide) (by decide) (by decide)).2.1⟩

/-! ## The decryption gate and the indexer -/

section
variable {Obj RS SS : Type}

theorem pathFields_gvrStr (path : String) (f : PathFields) (hf : pathFields path = some f) :
    f.gvrStr = (strings.Split path "/").headD "" := by
  rcases hs : strings.Split path "/" with _ | ⟨a, _ | ⟨b, _ | ⟨c, rest⟩⟩⟩
  · rw [pathFields_of_nil path hs] at hf; cases hf
  · rw [pathFields_of_one path a hs] at hf; cases hf
  · rw [pathFields_of_two path a b hs] at hf; cases hf; rfl
  · rw [pathFields_of_three path a b c rest hs] at hf; cases hf; rfl

theorem pathFields_isSome_iff (path : String) :
    (pathFields path).isSome = true ↔ 2 ≤ (strings.Split path "/").length := by
  rcases hs : strings.Split path "/" with _ | ⟨a, _ | ⟨b, _ | ⟨c, rest⟩⟩⟩
  · simp [pathFields_of_nil path hs]
  · simp [pathFields_of_one path a hs]
  · simp [pathFields_of_two path a b hs]
  · simp [pathFields_of_three path a b c rest hs]

/-- The key `loadDataFromFile` builds for an entry: the namespace field is
filled in only on the namespaced branch. -/
theorem indexData_of_decoded (env : Env Obj RS SS) (h : handler Obj RS SS) (path : String)
    (f : PathFields) (gvr : GroupVersionResource) (data : Bytes) (fileMap : Obj)
    (hdec : env.unmarshalObject data = .ok fileMap) :
    indexData env h path f gvr data =
      if strings.EqualFold gvr.Resource "customresourcedefinitions" then
        .ok { h with
              crdInfoToData :=
                Function.update h.crdInfoToData
                  { Name := f.name, Namespace := "", GVR := gvr, ConfigPath := path }
                  (some fileMap) }
      else if f.ns ≠ "" then
        .ok { h with
              namespacedResourceInfoToData :=
                Function.update h.namespacedResourceInfoToData
                  { Name := f.name, Namespace := f.ns, GVR := gvr, ConfigPath := path }
                  (some fileMap) }
      else
        .ok { h with
              clusterscopedResourceInfoToData :=
                Function.update h.clusterscopedResourceInfoToData
                  { Name := f.name, Namespace := "", GVR := gvr, ConfigPath := path }
                  (some fileMap) } := by
  simp only [indexData, hdec]

theorem indexData_of_error (env : Env Obj RS SS) (h : handler Obj RS SS) (path : String)
    (f : PathFields) (gvr : GroupVersionResource) (data : Bytes) (err : GoError)
    (hdec : env.unmarshalObject data = .error err) :
    indexData env h path f gvr data = .error err h := by
  simp only [indexData, hdec]

end

/-! ## The invariant of the three output maps -/

section
variable {Obj RS SS : Type}

theorem placeKey_configPath (gvr : GroupVersionResource) (f : PathFields) (path : String) :
    (placeKey gvr f path).2.ConfigPath = path := by
  unfold placeKey
  split_ifs <;> rfl

theorem indexData_eq_put (env : Env Obj RS SS) (h : handler Obj RS SS) (path : String)
    (f : PathFields) (gvr : GroupVersionResource) (data : Bytes) (fileMap : Obj)
    (hdec : env.unmarshalObject data = .ok fileMap) :
    indexData env h path f gvr data =
      .ok (h.put (placeKey gvr f path).1 (placeKey gvr f path).2 fileMap) := by
  rw [indexData_of_decoded env h path f gvr data fileMap hdec]
  unfold placeKey
  split_ifs <;> rfl

theorem part_put (h : handler Obj RS SS) (p p' : Partition) (k k' : objInfo) (v : Obj) :
    (h.put p k v).part p' k' = if p' = p ∧ k' = k then some v else h.part p' k' := by
  cases p <;> cases p' <;> simp [handler.put, handler.part, Function.update_apply]

theorem Indexed_put (env : Env Obj RS SS) (h : handler Obj RS SS) (p : Partition)
    (k : objInfo) (v : Obj) (hinv : Indexed env h)
    (hk : entryKey env k.ConfigPath = some (p, k)) : Indexed env (h.put p k v) := by
  intro p' k' hne
  rw [part_put] at hne
  by_cases hpk : p' = p ∧ k' = k
  · rw [hpk.1, hpk.2]; exact hk
  · rw [if_neg hpk] at hne
    exact hinv p' k' hne

theorem Indexed_of_part_eq (env : Env Obj RS SS) (h h' : handler Obj RS SS)
    (hinv : Indexed env h) (hpart : ∀ p, h'.part p = h.part p) : Indexed env h' := by
  intro p k hne
  rw [hpart] at hne
  exact hinv p k hne

/-- What an entry that `indexData` stores leaves behind. -/
theorem indexData_cases (env : Env Obj RS SS) (h : handler Obj RS SS) (path : String)
    (f : PathFields) (gvr : GroupVersionResource) (data : Bytes) :
    (∃ err, env.unmarshalObject data = .error err ∧
        indexData env h path f gvr data = .error err h) ∨
      ∃ fileMap, env.unmarshalObject data = .ok fileMap ∧
        indexData env h path f gvr data =
          .ok (h.put (placeKey gvr f path).1 (placeKey gvr f path).2 fileMap) := by
  cases hdec : env.unmarshalObject data with
  | error err => exact Or.inl ⟨err, rfl, indexData_of_error env h path f gvr data err hdec⟩
  | ok fileMap => exact Or.inr ⟨fileMap, rfl, indexData_eq_put env h path f gvr data fileMap hdec⟩

end

section
variable {Obj RS SS : Type}

/-- The three ways `loadDataFromFile` ends.  In each the path is marked as
seen and the accumulators are untouched; the maps are untouched too, except
for the one key stored when the call returns `nil`. -/
theorem loadDataFromFile_outcome (env : Env Obj RS SS) (h : handler Obj RS SS)
    (tarContent : Header) (readData : Bytes) (transformerMap : TransformerMap) :
    ∃ h2 : handler Obj RS SS,
      (∀ p, h2.part p = h.part p) ∧
      h2.resourcesFromBackup = Function.update h.resourcesFromBackup tarContent.Name true ∧
      h2.backupResourceSet = h.backupResourceSet ∧
      h2.resourcesWithStatusSubresource = h.resourcesWithStatusSubresource ∧
      ((pathFields tarContent.Name = none ∧
          loadDataFromFile env h tarContent readData transformerMap = .panic h2) ∨
        (∃ err f, pathFields tarContent.Name = some f ∧
          loadDataFromFile env h tarContent readData transformerMap = .error err h2) ∨
        ∃ f fileMap, pathFields tarContent.Name = some f ∧
          loadDataFromFile env h tarContent readData transformerMap =
            .ok (h2.put (placeKey (env.getGVR f.gvrStr) f tarContent.Name).1
                  (placeKey (env.getGVR f.gvrStr) f tarContent.Name).2 fileMap)) := by
  cases hf : pathFields tarContent.Name with
  | none =>
    refine ⟨h.markSeen tarContent.Name, fun p => by cases p <;> rfl, rfl, rfl, rfl, Or.inl ⟨rfl, ?_⟩⟩
    simp only [loadDataFromFile, hf, handler.markSeen]
  | some f =>
    cases ht : transformerMap (env.getGVR f.gvrStr).GroupResource with
    | none =>
      have hload : loadDataFromFile env h tarContent readData transformerMap =
          indexData env (h.markSeen tarContent.Name) tarContent.Name f
            (env.getGVR f.gvrStr) readData := by
        simp only [loadDataFromFile, hf, ht, handler.markSeen]
      refine ⟨h.markSeen tarContent.Name, fun p => by cases p <;> rfl, rfl, rfl, rfl, Or.inr ?_⟩
      rw [hload]
      rcases indexData_cases env (h.markSeen tarContent.Name) tarContent.Name f
          (env.getGVR f.gvrStr) readData with ⟨err, _, he⟩ | ⟨fileMap, _, hk⟩
      · exact Or.inl ⟨err, f, rfl, he⟩
      · exact Or.inr ⟨f, fileMap, rfl, hk⟩
    | some t =>
      cases henc : env.unmarshalBytes readData with
      | error err =>
        refine ⟨h.markSeen tarContent.Name, fun p => by cases p <;> rfl, rfl, rfl, rfl,
          Or.inr (Or.inl ⟨err, f, rfl, ?_⟩)⟩
        simp only [loadDataFromFile, hf, ht, henc, handler.markSeen]
      | ok enc =>
        cases hdec : t enc f.additionalAuthenticatedData with
        | error err =>
          refine ⟨{ h.markSeen tarContent.Name with
                    transformCalls := h.transformCalls ++
                      [((env.getGVR f.gvrStr).GroupResource, enc,
                        f.additionalAuthenticatedData)] },
            fun p => by cases p <;> rfl, rfl, rfl, rfl, Or.inr (Or.inl ⟨err, f, rfl, ?_⟩)⟩
          simp only [loadDataFromFile, hf, ht, henc, hdec, handler.markSeen]
        | ok clear =>
          have hload : loadDataFromFile env h tarContent readData transformerMap =
              indexData env
                { h.markSeen tarContent.Name with
                  transformCalls := h.transformCalls ++
                    [((env.getGVR f.gvrStr).GroupResource, enc,
                      f.additionalAuthenticatedData)] }
                tarContent.Name f (env.getGVR f.gvrStr) clear := by
            simp only [loadDataFromFile, hf, ht, henc, hdec, handler.markSeen]
          refine ⟨{ h.markSeen tarContent.Name with
                    transformCalls := h.transformCalls ++
                      [((env.getGVR f.gvrStr).GroupResource, enc,
                        f.additionalAuthenticatedData)] },
            fun p => by cases p <;> rfl, rfl, rfl, rfl, Or.inr ?_⟩
          rw [hload]
          rcases indexData_cases env _ tarContent.Name f (env.getGVR f.gvrStr) clear with
            ⟨err, _, he⟩ | ⟨fileMap, _, hk⟩
          · exact Or.inl ⟨err, f, rfl, he⟩
          · exact Or.inr ⟨f, fileMap, rfl, hk⟩

theorem Indexed_loadDataFromFile (env : Env Obj RS SS) (h : handler Obj RS SS)
    (tarContent : Header) (readData : Bytes) (transformerMap : TransformerMap)
    (hinv : Indexed env h) :
    Indexed env (loadDataFromFile env h tarContent readData transformerMap).state := by
  obtain ⟨h2, hpart, -, -, -, hcase⟩ :=
    loadDataFromFile_outcome env h tarContent readData transformerMap
  have hinv2 : Indexed env h2 := Indexed_of_part_eq env h h2 hinv hpart
  rcases hcase with ⟨-, hr⟩ | ⟨err, f, -, hr⟩ | ⟨f, fileMap, hf, hr⟩
  · rw [hr]; exact hinv2
  · rw [hr]; exact hinv2
  · rw [hr]
    apply Indexed_put env h2 _ _ _ hinv2
    rw [placeKey_configPath]
    simp only [entryKey, hf, Option.map_some']

theorem loadRecord_nextError (env : Env Obj RS SS) (transformerMap : TransformerMap)
    (h : handler Obj RS SS) (err : GoError) :
    loadRecord env transformerMap h (.nextError err) = .error err h := rfl

theorem loadRecord_not_regular (env : Env Obj RS SS) (transformerMap : TransformerMap)
    (h : handler Obj RS SS) (tarContent : Header) (body : Except GoError Bytes)
    (hreg : tarContent.Typeflag ≠ TypeReg) :
    loadRecord env transformerMap h (.file tarContent body) = .ok h := by
  simp only [loadRecord, hreg, ne_eq, not_false_eq_true, if_true]

theorem loadRecord_read_error (env : Env Obj RS SS) (transformerMap : TransformerMap)
    (h : handler Obj RS SS) (tarContent : Header) (err : GoError)
    (hreg : tarContent.Typeflag = TypeReg) :
    loadRecord env transformerMap h (.file tarContent (.error err)) = .error err h := by
  simp only [loadRecord, hreg, ne_eq, not_true_eq_false, if_false]

theorem loadRecord_control (env : Env Obj RS SS) (transformerMap : TransformerMap)
    (h : handler Obj RS SS) (tarContent : Header) (readData : Bytes)
    (hreg : tarContent.Typeflag = TypeReg)
    (hfilters : strings.Contains tarContent.Name "filters" = true) :
    loadRecord env transformerMap h (.file tarContent (.ok readData)) =
      loadControlFile env h tarContent readData := by
  simp only [loadRecord, hreg, ne_eq, not_true_eq_false, if_false, hfilters, if_true]

theorem loadRecord_resource (env : Env Obj RS SS) (transformerMap : TransformerMap)
    (h : handler Obj RS SS) (tarContent : Header) (readData : Bytes)
    (hreg : tarContent.Typeflag = TypeReg)
    (hfilters : strings.Contains tarContent.Name "filters" = false) :
    loadRecord env transformerMap h (.file tarContent (.ok readData)) =
      loadDataFromFile env h tarContent readData transformerMap := by
  simp only [loadRecord, hreg, ne_eq, not_true_eq_false, if_false, hfilters,
    Bool.false_eq_true]

/-- A control file changes nothing but the two accumulators. -/
theorem loadControlFile_frame (env : Env Obj RS SS) (h : handler Obj RS SS)
    (tarContent : Header) (readData : Bytes) :
    (loadControlFile env h tarContent readData).state.crdInfoToData = h.crdInfoToData ∧
      (loadControlFile env h tarContent readData).state.namespacedResourceInfoToData =
        h.namespacedResourceInfoToData ∧
      (loadControlFile env h tarContent readData).state.clusterscopedResourceInfoToData =
        h.clusterscopedResourceInfoToData ∧
      (loadControlFile env h tarContent readData).state.resourcesFromBackup =
        h.resourcesFromBackup ∧
      (loadControlFile env h tarContent readData).state.transformCalls = h.transformCalls ∧
      (loadControlFile env h tarContent readData).isPanic = false := by
  unfold loadControlFile
  simp only
  split
  · exact ⟨rfl, rfl, rfl, rfl, rfl, rfl⟩
  · split <;> exact ⟨rfl, rfl, rfl, rfl, rfl, rfl⟩

theorem loadControlFile_part (env : Env Obj RS SS) (h : handler Obj RS SS)
    (tarContent : Header) (readData : Bytes) (p : Partition) :
    (loadControlFile env h tarContent readData).state.part p = h.part p := by
  obtain ⟨h1, h2, h3, -⟩ := loadControlFile_frame env h tarContent readData
  cases p
  · exact h1
  · exact h2
  · exact h3

theorem Indexed_loadRecord (env : Env Obj RS SS) (transformerMap : TransformerMap)
    (h : handler Obj RS SS) (r : TarRecord) (hinv : Indexed env h) :
    Indexed env (loadRecord env transformerMap h r).state := by
  cases r with
  | nextError err => exact hinv
  | file tarContent body =>
    by_cases hreg : tarContent.Typeflag = TypeReg
    · cases body with
      | error err => rw [loadRecord_read_error env transformerMap h tarContent err hreg]; exact hinv
      | ok readData =>
        cases hfilters : strings.Contains tarContent.Name "filters" with
        | true =>
          rw [loadRecord_control env transformerMap h tarContent readData hreg hfilters]
          exact Indexed_of_part_eq env h _ hinv (loadControlFile_part env h tarContent readData)
        | false =>
          rw [loadRecord_resource env transformerMap h tarContent readData hreg hfilters]
          exact Indexed_loadDataFromFile env h tarContent readData transformerMap hinv
    · rw [loadRecord_not_regular env transformerMap h tarContent body hreg]; exact hinv

theorem Indexed_loadRecords (env : Env Obj RS SS) (transformerMap : TransformerMap)
    (rs : List TarRecord) (h : handler Obj RS SS) (hinv : Indexed env h) :
    Indexed env (loadRecords env transformerMap h rs).state := by
  induction rs generalizing h with
  | nil => exact hinv
  | cons r rs ih =>
    have hstep := Indexed_loadRecord env transformerMap h r hinv
    unfold loadRecords
    cases hr : loadRecord env transformerMap h r with
    | ok h1 => rw [hr] at hstep; exact ih h1 hstep
    | error err h1 => rw [hr] at hstep; exact hstep
    | panic h1 => rw [hr] at hstep; exact hstep

theorem Indexed_of_empty (env : Env Obj RS SS) (h : handler Obj RS SS)
    (hcrd : ∀ k, h.crdInfoToData k = none)
    (hns : ∀ k, h.namespacedResourceInfoToData k = none)
    (hcl : ∀ k, h.clusterscopedResourceInfoToData k = none) : Indexed env h := by
  intro p k hne
  cases p
  · exact absurd (hcrd k) hne
  · exact absurd (hns k) hne
  · exact absurd (hcl k) hne

theorem Indexed_LoadFromTarGzip (env : Env Obj RS SS) (h : handler Obj RS SS)
    (tarGzFilePath : String) (transformerMap : TransformerMap) (hinv : Indexed env h) :
    Indexed env (LoadFromTarGzip env h tarGzFilePath transformerMap).state := by
  unfold LoadFromTarGzip
  split
  · exact hinv
  · exact hinv
  · exact Indexed_loadRecords env transformerMap _ h hinv

end

section
variable {Obj RS SS : Type}

theorem loadDataFromFile_of_no_fields (env : Env Obj RS SS) (h : handler Obj RS SS)
    (tarContent : Header) (readData : Bytes) (transformerMap : TransformerMap)
    (hf : pathFields tarContent.Name = none) :
    loadDataFromFile env h tarContent readData transformerMap =
      .panic (h.markSeen tarContent.Name) := by
  simp only [loadDataFromFile, hf, handler.markSeen]

theorem loadDataFromFile_of_none (env : Env Obj RS SS) (h : handler Obj RS SS)
    (tarContent : Header) (readData : Bytes) (transformerMap : TransformerMap)
    (f : PathFields) (hf : pathFields tarContent.Name = some f)
    (ht : transformerMap (env.getGVR f.gvrStr).GroupResource = none) :
    loadDataFromFile env h tarContent readData transformerMap =
      indexData env (h.markSeen tarContent.Name) tarContent.Name f
        (env.getGVR f.gvrStr) readData := by
  simp only [loadDataFromFile, hf, ht, handler.markSeen]

theorem loadDataFromFile_of_envelope_error (env : Env Obj RS SS) (h : handler Obj RS SS)
    (tarContent : Header) (readData : Bytes) (transformerMap : TransformerMap)
    (f : PathFields) (t : Transformer) (err : GoError)
    (hf : pathFields tarContent.Name = some f)
    (ht : transformerMap (env.getGVR f.gvrStr).GroupResource = some t)
    (henc : env.unmarshalBytes readData = .error err) :
    loadDataFromFile env h tarContent readData transformerMap =
      .error err (h.markSeen tarContent.Name) := by
  simp only [loadDataFromFile, hf, ht, henc, handler.markSeen]

theorem loadDataFromFile_of_transform_error (env : Env Obj RS SS) (h : handler Obj RS SS)
    (tarContent : Header) (readData enc : Bytes) (transformerMap : TransformerMap)
    (f : PathFields) (t : Transformer) (err : GoError)
    (hf : pathFields tarContent.Name = some f)
    (ht : transformerMap (env.getGVR f.gvrStr).GroupResource = some t)
    (henc : env.unmarshalBytes readData = .ok enc)
    (hdec : t enc f.additionalAuthenticatedData = .error err) :
    loadDataFromFile env h tarContent readData transformerMap =
      .error err
        { h.markSeen tarContent.Name with
          transformCalls := h.transformCalls ++
            [((env.getGVR f.gvrStr).GroupResource, enc, f.additionalAuthenticatedData)] } := by
  simp only [loadDataFromFile, hf, ht, henc, hdec, handler.markSeen]

theorem loadDataFromFile_of_decrypted (env : Env Obj RS SS) (h : handler Obj RS SS)
    (tarContent : Header) (readData enc clear : Bytes) (transformerMap : TransformerMap)
    (f : PathFields) (t : Transformer)
    (hf : pathFields tarContent.Name = some f)
    (ht : transformerMap (env.getGVR f.gvrStr).GroupResource = some t)
    (henc : env.unmarshalBytes readData = .ok enc)
    (hdec : t enc f.additionalAuthenticatedData = .ok clear) :
    loadDataFromFile env h tarContent readData transformerMap =
      indexData env
        { h.markSeen tarContent.Name with
          transformCalls := h.transformCalls ++
            [((env.getGVR f.gvrStr).GroupResource, enc, f.additionalAuthenticatedData)] }
        tarContent.Name f (env.getGVR f.gvrStr) clear := by
  simp only [loadDataFromFile, hf, ht, henc, hdec, handler.markSeen]

/-- The maps after the assignment chosen by `placeKey`, case by case. -/
theorem put_placeKey_maps (h : handler Obj RS SS) (gvr : GroupVersionResource)
    (f : PathFields) (path : String) (v : Obj) :
    (strings.EqualFold gvr.Resource "customresourcedefinitions" = true →
        (h.put (placeKey gvr f path).1 (placeKey gvr f path).2 v).crdInfoToData =
            Function.update h.crdInfoToData
              { Name := f.name, Namespace := "", GVR := gvr, ConfigPath := path } (some v) ∧
          (h.put (placeKey gvr f path).1 (placeKey gvr f path).2 v).namespacedResourceInfoToData =
            h.namespacedResourceInfoToData ∧
          (h.put (placeKey gvr f path).1
              (placeKey gvr f path).2 v).clusterscopedResourceInfoToData =
            h.clusterscopedResourceInfoToData) ∧
      (strings.EqualFold gvr.Resource "customresourcedefinitions" = false → f.ns ≠ "" →
        (h.put (placeKey gvr f path).1 (placeKey gvr f path).2 v).namespacedResourceInfoToData =
            Function.update h.namespacedResourceInfoToData
              { Name := f.name, Namespace := f.ns, GVR := gvr, ConfigPath := path } (some v) ∧
          (h.put (placeKey gvr f path).1 (placeKey gvr f path).2 v).crdInfoToData =
            h.crdInfoToData ∧
          (h.put (placeKey gvr f path).1
              (placeKey gvr f path).2 v).clusterscopedResourceInfoToData =
            h.clusterscopedResourceInfoToData) ∧
      (strings.EqualFold gvr.Resource "customresourcedefinitions" = false → f.ns = "" →
        (h.put (placeKey gvr f path).1
              (placeKey gvr f path).2 v).clusterscopedResourceInfoToData =
            Function.update h.clusterscopedResourceInfoToData
              { Name := f.name, Namespace := f.ns, GVR := gvr, ConfigPath := path } (some v) ∧
          (h.put (placeKey gvr f path).1 (placeKey gvr f path).2 v).crdInfoToData =
            h.crdInfoToData ∧
          (h.put (placeKey gvr f path).1 (placeKey gvr f path).2 v).namespacedResourceInfoToData =
            h.namespacedResourceInfoToData) := by
  refine ⟨?_, ?_, ?_⟩
  · intro hcrd
    simp [placeKey, hcrd, handler.put]
  · intro hcrd hns
    simp [placeKey, hcrd, hns, handler.put]
  · intro hcrd hns
    simp [placeKey, hcrd, hns, handler.put]

/-- A successful `loadDataFromFile`: the clear bytes that were decoded and
the handler it left. -/
theorem loadDataFromFile_ok_inv (env : Env Obj RS SS) (h h' : handler Obj RS SS)
    (tarContent : Header) (readData : Bytes) (transformerMap : TransformerMap)
    (hok : loadDataFromFile env h tarContent readData transformerMap = .ok h') :
    ∃ (f : PathFields) (fileMap : Obj) (clear : Bytes) (h1 : handler Obj RS SS),
      pathFields tarContent.Name = some f ∧
      env.unmarshalObject clear = .ok fileMap ∧
      (transformerMap (env.getGVR f.gvrStr).GroupResource = none → clear = readData) ∧
      (∀ t, transformerMap (env.getGVR f.gvrStr).GroupResource = some t →
        ∃ enc, env.unmarshalBytes readData = .ok enc ∧
          t enc f.additionalAuthenticatedData = .ok clear) ∧
      (∀ p, h1.part p = h.part p) ∧
      h1.resourcesFromBackup = Function.update h.resourcesFromBackup tarContent.Name true ∧
      h' = h1.put (placeKey (env.getGVR f.gvrStr) f tarContent.Name).1
            (placeKey (env.getGVR f.gvrStr) f tarContent.Name).2 fileMap := by
  cases hf : pathFields tarContent.Name with
  | none =>
    rw [loadDataFromFile_of_no_fields env h tarContent readData transformerMap hf] at hok
    cases hok
  | some f =>
    cases ht : transformerMap (env.getGVR f.gvrStr).GroupResource with
    | none =>
      rw [loadDataFromFile_of_none env h tarContent readData transformerMap f hf ht] at hok
      rcases indexData_cases env (h.markSeen tarContent.Name) tarContent.Name f
          (env.getGVR f.gvrStr) readData with ⟨err, _, he⟩ | ⟨fileMap, hdec, hk⟩
      · rw [he] at hok; cases hok
      · rw [hk] at hok
        refine ⟨f, fileMap, readData, h.markSeen tarContent.Name, rfl, hdec, fun _ => rfl,
          (fun t ht' => by rw [ht] at ht'; cases ht'), (fun p => by cases p <;> rfl), rfl, ?_⟩
        injection hok with hok
        exact hok.symm
    | some t =>
      cases henc : env.unmarshalBytes readData with
      | error err =>
        rw [loadDataFromFile_of_envelope_error env h tarContent readData transformerMap f t err
          hf ht henc] at hok
        cases hok
      | ok enc =>
        cases hdec : t enc f.additionalAuthenticatedData with
        | error err =>
          rw [loadDataFromFile_of_transform_error env h tarContent readData enc transformerMap
            f t err hf ht henc hdec] at hok
          cases hok
        | ok clear =>
          rw [loadDataFromFile_of_decrypted env h tarContent readData enc clear transformerMap
            f t hf ht henc hdec] at hok
          rcases indexData_cases env _ tarContent.Name f (env.getGVR f.gvrStr) clear with
            ⟨err, _, he⟩ | ⟨fileMap, hobj, hk⟩
          · rw [he] at hok; cases hok
          · rw [hk] at hok
            refine ⟨f, fileMap, clear,
              { h.markSeen tarContent.Name with
                transformCalls := h.transformCalls ++
                  [((env.getGVR f.gvrStr).GroupResource, enc,
                    f.additionalAuthenticatedData)] },
              rfl, hobj, (fun hn => by rw [ht] at hn; cases hn), ?_, (fun p => by cases p <;> rfl), rfl, ?_⟩
            · intro t' ht'
              rw [ht] at ht'
              have ht2 : t = t' := Option.some.inj ht'
              subst ht2
              exact ⟨enc, rfl, hdec⟩
            · injection hok with hok
              exact hok.symm

end

section
variable {Obj RS SS : Type}

theorem loadDataFromFile_error_inv (env : Env Obj RS SS) (h h' : handler Obj RS SS)
    (tarContent : Header) (readData : Bytes) (transformerMap : TransformerMap) (err : GoError)
    (herr : loadDataFromFile env h tarContent readData transformerMap = .error err h') :
    ∃ f : PathFields, pathFields tarContent.Name = some f ∧
      ((∃ t, transformerMap (env.getGVR f.gvrStr).GroupResource = some t ∧
          env.unmarshalBytes readData = .error err) ∨
        (∃ t enc, transformerMap (env.getGVR f.gvrStr).GroupResource = some t ∧
          env.unmarshalBytes readData = .ok enc ∧
          t enc f.additionalAuthenticatedData = .error err) ∨
        ∃ clear, env.unmarshalObject clear = .error err) := by
  cases hf : pathFields tarContent.Name with
  | none =>
    rw [loadDataFromFile_of_no_fields env h tarContent readData transformerMap hf] at herr
    cases herr
  | some f =>
    refine ⟨f, rfl, ?_⟩
    cases ht : transformerMap (env.getGVR f.gvrStr).GroupResource with
    | none =>
      rw [loadDataFromFile_of_none env h tarContent readData transformerMap f hf ht] at herr
      rcases indexData_cases env (h.markSeen tarContent.Name) tarContent.Name f
          (env.getGVR f.gvrStr) readData with ⟨e, hdec, he⟩ | ⟨fileMap, _, hk⟩
      · rw [he] at herr
        injection herr with he1 _
        subst he1
        exact Or.inr (Or.inr ⟨readData, hdec⟩)
      · rw [hk] at herr; cases herr
    | some t =>
      cases henc : env.unmarshalBytes readData with
      | error e =>
        rw [loadDataFromFile_of_envelope_error env h tarContent readData transformerMap f t e
          hf ht henc] at herr
        injection herr with he1 _
        subst he1
        exact Or.inl ⟨t, rfl, rfl⟩
      | ok enc =>
        cases hdec : t enc f.additionalAuthenticatedData with
        | error e =>
          rw [loadDataFromFile_of_transform_error env h tarContent readData enc transformerMap
            f t e hf ht henc hdec] at herr
          injection herr with he1 _
          subst he1
          exact Or.inr (Or.inl ⟨t, enc, rfl, rfl, hdec⟩)
        | ok clear =>
          rw [loadDataFromFile_of_decrypted env h tarContent readData enc clear transformerMap
            f t hf ht henc hdec] at herr
          rcases indexData_cases env _ tarContent.Name f (env.getGVR f.gvrStr) clear with
            ⟨e, hobj, he⟩ | ⟨fileMap, _, hk⟩
          · rw [he] at herr
            injection herr with he1 _
            subst he1
            exact Or.inr (Or.inr ⟨clear, hobj⟩)
          · rw [hk] at herr; cases herr

theorem Outcome.err?_eq_some {σ : Type} (r : Outcome σ) (err : GoError)
    (h : r.err? = some err) : ∃ s, r = .error err s := by
  cases r with
  | ok s => cases h
  | error e s => exact ⟨s, by simp only [Outcome.err?, Option.some.injEq] at h; rw [h]⟩
  | panic s => cases h

end

/-! ## The claims on the decryption gate, the path shape and the indexer -/

/-- C1: starting from three empty maps, whatever the resolver, the
transformers, the decoders and the archive, no key is present in two of the
maps `crdInfoToData`, `namespacedResourceInfoToData` and
`clusterscopedResourceInfoToData` in the handler `LoadFromTarGzip` leaves (when
it returns `nil`, and also when it stops early). -/
theorem partition_disjoint {Obj RS SS : Type} (env : Env Obj RS SS) (h : handler Obj RS SS)
    (tarGzFilePath : String) (transformerMap : TransformerMap)
    (hcrd : ∀ k, h.crdInfoToData k = none)
    (hns : ∀ k, h.namespacedResourceInfoToData k = none)
    (hcl : ∀ k, h.clusterscopedResourceInfoToData k = none) (k : objInfo) :
    ¬ ((LoadFromTarGzip env h tarGzFilePath transformerMap).state.crdInfoToData k ≠ none ∧
        (LoadFromTarGzip env h tarGzFilePath
          transformerMap).state.namespacedResourceInfoToData k ≠ none) ∧
      ¬ ((LoadFromTarGzip env h tarGzFilePath transformerMap).state.crdInfoToData k ≠ none ∧
        (LoadFromTarGzip env h tarGzFilePath
          transformerMap).state.clusterscopedResourceInfoToData k ≠ none) ∧
      ¬ ((LoadFromTarGzip env h tarGzFilePath
          transformerMap).state.namespacedResourceInfoToData k ≠ none ∧
        (LoadFromTarGzip env h tarGzFilePath
          transformerMap).state.clusterscopedResourceInfoToData k ≠ none) := by
  have hinv := Indexed_LoadFromTarGzip env h tarGzFilePath transformerMap
    (Indexed_of_empty env h hcrd hns hcl)
  have key : ∀ p p' : Partition,
      (LoadFromTarGzip env h tarGzFilePath transformerMap).state.part p k ≠ none →
      (LoadFromTarGzip env h tarGzFilePath transformerMap).state.part p' k ≠ none →
      p = p' := by
    intro p p' h1 h2
    have e1 := hinv p k h1
    have e2 := hinv p' k h2
    rw [e1] at e2
    injection e2 with e2
    injection e2
  refine ⟨?_, ?_, ?_⟩
  · rintro ⟨h1, h2⟩
    exact absurd (key .crd .namespaced h1 h2) (by decide)
  · rintro ⟨h1, h2⟩
    exact absurd (key .crd .clusterscoped h1 h2) (by decide)
  · rintro ⟨h1, h2⟩
    exact absurd (key .namespaced .clusterscoped h1 h2) (by decide)

/-- C1, on `demoArchive` loaded into the empty handler: the load returns
`nil`, the service account is in the namespaced map, and it is in neither of
the two other maps. -/
theorem partition_disjoint_witness :
    (LoadFromTarGzip (demoEnv demoArchive) emptyHandler "backup.tar.gz"
        noTransformers).isOk = true ∧
      (LoadFromTarGzip (demoEnv demoArchive) emptyHandler "backup.tar.gz"
        noTransformers).state.namespacedResourceInfoToData
          { Name := "cattle", Namespace := "cattle-system",
            GVR := { Group := "", Version := "v1", Resource := "serviceaccounts" },
            ConfigPath := "serviceaccounts.#v1/cattle-system/cattle.json" } ≠ none ∧
      ¬ ((LoadFromTarGzip (demoEnv demoArchive) emptyHandler "backup.tar.gz"
            noTransformers).state.crdInfoToData
            { Name := "cattle", Namespace := "cattle-system",
              GVR := { Group := "", Version := "v1", Resource := "serviceaccounts" },
              ConfigPath := "serviceaccounts.#v1/cattle-system/cattle.json" } ≠ none ∧
          (LoadFromTarGzip (demoEnv demoArchive) emptyHandler "backup.tar.gz"
            noTransformers).state.namespacedResourceInfoToData
            { Name := "cattle", Namespace := "cattle-system",
              GVR := { Group := "", Version := "v1", Resource := "serviceaccounts" },
              ConfigPath := "serviceaccounts.#v1/cattle-system/cattle.json" } ≠ none) :=
  ⟨by decide, by decide,
   (partition_disjoint (demoEnv demoArchive) emptyHandler "backup.tar.gz" noTransformers
      (fun _ => rfl) (fun _ => rfl) (fun _ => rfl) _).1⟩

/-- C4: when the transformer map has no transformer for the group and
resource of `getGVR` of the first path segment, `loadDataFromFile` calls no
transformer, and what it decodes as JSON and stores is the entry's raw bytes:
a decoding error of the raw bytes is the error returned, and the object
decoded from the raw bytes is the value stored. -/
theorem no_transformer_identity {Obj RS SS : Type} (env : Env Obj RS SS)
    (h : handler Obj RS SS) (tarContent : Header) (readData : Bytes)
    (transformerMap : TransformerMap)
    (hnone : transformerMap
      (env.getGVR ((strings.Split tarContent.Name "/").headD "")).GroupResource = none) :
    (loadDataFromFile env h tarContent readData transformerMap).state.transformCalls =
        h.transformCalls ∧
      (∀ f, pathFields tarContent.Name = some f →
        loadDataFromFile env h tarContent readData transformerMap =
          indexData env (h.markSeen tarContent.Name) tarContent.Name f
            (env.getGVR f.gvrStr) readData) ∧
      (∀ f err, pathFields tarContent.Name = some f →
        env.unmarshalObject readData = .error err →
        loadDataFromFile env h tarContent readData transformerMap =
          .error err (h.markSeen tarContent.Name)) ∧
      (∀ f fileMap, pathFields tarContent.Name = some f →
        env.unmarshalObject readData = .ok fileMap →
        loadDataFromFile env h tarContent readData transformerMap =
          .ok ((h.markSeen tarContent.Name).put
            (placeKey (env.getGVR f.gvrStr) f tarContent.Name).1
            (placeKey (env.getGVR f.gvrStr) f tarContent.Name).2 fileMap)) := by
  have hload : ∀ f, pathFields tarContent.Name = some f →
      loadDataFromFile env h tarContent readData transformerMap =
        indexData env (h.markSeen tarContent.Name) tarContent.Name f
          (env.getGVR f.gvrStr) readData := by
    intro f hf
    apply loadDataFromFile_of_none env h tarContent readData transformerMap f hf
    rw [pathFields_gvrStr tarContent.Name f hf]
    exact hnone
  refine ⟨?_, hload, ?_, ?_⟩
  · cases hf : pathFields tarContent.Name with
    | none =>
      rw [loadDataFromFile_of_no_fields env h tarContent readData transformerMap hf]
      rfl
    | some f =>
      rw [hload f hf, indexData_transformCalls]
      rfl
  · intro f err hf hdec
    rw [hload f hf]
    exact indexData_of_error env _ tarContent.Name f _ readData err hdec
  · intro f fileMap hf hdec
    rw [hload f hf]
    exact indexData_eq_put env _ tarContent.Name f _ readData fileMap hdec

/-- C4, on the service account of the spec with no transformer registered:
no transformer is called and the stored object is the one decoded from the
raw body. -/
theorem no_transformer_identity_witness :
    noTransformers
        (specGVR ((strings.Split "serviceaccounts.#v1/cattle-system/cattle.json" "/").headD
          "")).GroupResource = none ∧
      (loadDataFromFile (demoEnv []) emptyHandler
          (regularHeader "serviceaccounts.#v1/cattle-system/cattle.json")
          (bytesOf "\x7b\"kind\":\"ServiceAccount\"\x7d") noTransformers).state.transformCalls
        = [] ∧
      (loadDataFromFile (demoEnv []) emptyHandler
          (regularHeader "serviceaccounts.#v1/cattle-system/cattle.json")
          (bytesOf "\x7b\"kind\":\"ServiceAccount\"\x7d")
          noTransformers).state.namespacedResourceInfoToData
          { Name := "cattle", Namespace := "cattle-system",
            GVR := { Group := "", Version := "v1", Resource := "serviceaccounts" },
            ConfigPath := "serviceaccounts.#v1/cattle-system/cattle.json" }
        = some (bytesOf "\x7b\"kind\":\"ServiceAccount\"\x7d") :=
  ⟨rfl,
   (no_transformer_identity (demoEnv []) emptyHandler
      (regularHeader "serviceaccounts.#v1/cattle-system/cattle.json")
      (bytesOf "\x7b\"kind\":\"ServiceAccount\"\x7d") noTransformers rfl).1,
   by decide⟩

/-- C7 fails: the four-segment path
`serviceaccounts.#v1/cattle-system/extra/cattle.json` does not contain
`filters`, yet `loadDataFromFile` returns `nil` on it and stores the entry in
the namespaced map under the name `extra` (the third segment). -/
theorem four_segments_are_indexed :
    (strings.Split "serviceaccounts.#v1/cattle-system/extra/cattle.json" "/").length = 4 ∧
      strings.Contains "serviceaccounts.#v1/cattle-system/extra/cattle.json" "filters"
        = false ∧
      (loadDataFromFile (demoEnv []) emptyHandler
          (regularHeader "serviceaccounts.#v1/cattle-system/extra/cattle.json")
          (bytesOf "\x7b\"kind\":\"ServiceAccount\"\x7d") noTransformers).isOk = true ∧
      (loadDataFromFile (demoEnv []) emptyHandler
          (regularHeader "serviceaccounts.#v1/cattle-system/extra/cattle.json")
          (bytesOf "\x7b\"kind\":\"ServiceAccount\"\x7d")
          noTransformers).state.namespacedResourceInfoToData
          { Name := "extra", Namespace := "cattle-system",
            GVR := { Group := "", Version := "v1", Resource := "serviceaccounts" },
            ConfigPath := "serviceaccounts.#v1/cattle-system/extra/cattle.json" }
        = some (bytesOf "\x7b\"kind\":\"ServiceAccount\"\x7d") := by
  decide

/-- C7, amended: on a path of four or more segments `loadDataFromFile` does
not panic and has no error for the shape of the path.  It reads the type,
the namespace and the name off the first three segments and ignores the
others; an error it returns is an error of the envelope decoding, of the
transformer or of the JSON decoding; and with no transformer registered and a
body that decodes, it returns `nil` and stores the entry. -/
theorem long_path_is_namespaced {Obj RS SS : Type} (env : Env Obj RS SS)
    (h : handler Obj RS SS) (tarContent : Header) (readData : Bytes)
    (transformerMap : TransformerMap)
    (hlen : 4 ≤ (strings.Split tarContent.Name "/").length) :
    ∃ ty ns file rest, strings.Split tarContent.Name "/" = ty :: ns :: file :: rest ∧
      pathFields tarContent.Name = some
        { name := strings.TrimSuffix file ".json", ns := ns,
          additionalAuthenticatedData := ns ++ "#" ++ strings.TrimSuffix file ".json",
          gvrStr := ty } ∧
      (loadDataFromFile env h tarContent readData transformerMap).isPanic = false ∧
      (∀ err, (loadDataFromFile env h tarContent readData transformerMap).err? = some err →
        (∃ t, transformerMap (env.getGVR ty).GroupResource = some t ∧
            env.unmarshalBytes readData = .error err) ∨
          (∃ t enc, transformerMap (env.getGVR ty).GroupResource = some t ∧
            env.unmarshalBytes readData = .ok enc ∧
            t enc (ns ++ "#" ++ strings.TrimSuffix file ".json") = .error err) ∨
          ∃ clear, env.unmarshalObject clear = .error err) ∧
      (∀ fileMap, transformerMap (env.getGVR ty).GroupResource = none →
        env.unmarshalObject readData = .ok fileMap →
        (loadDataFromFile env h tarContent readData transformerMap).isOk = true ∧
          ((loadDataFromFile env h tarContent readData transformerMap).state.crdInfoToData
              { Name := strings.TrimSuffix file ".json", Namespace := "",
                GVR := env.getGVR ty, ConfigPath := tarContent.Name } = some fileMap ∨
            (loadDataFromFile env h tarContent readData
                transformerMap).state.namespacedResourceInfoToData
              { Name := strings.TrimSuffix file ".json", Namespace := ns,
                GVR := env.getGVR ty, ConfigPath := tarContent.Name } = some fileMap ∨
            (loadDataFromFile env h tarContent readData
                transformerMap).state.clusterscopedResourceInfoToData
              { Name := strings.TrimSuffix file ".json", Namespace := "",
                GVR := env.getGVR ty, ConfigPath := tarContent.Name } = some fileMap)) := by
  rcases hs : strings.Split tarContent.Name "/" with _ | ⟨ty, _ | ⟨ns, _ | ⟨file, rest⟩⟩⟩
  · rw [hs] at hlen; simp at hlen
  · rw [hs] at hlen; simp at hlen
  · rw [hs] at hlen; simp at hlen
  have hf := pathFields_of_three tarContent.Name ty ns file rest hs
  refine ⟨ty, ns, file, rest, rfl, hf, ?_, ?_, ?_⟩
  · obtain ⟨h2, -, -, -, -, hcase⟩ :=
      loadDataFromFile_outcome env h tarContent readData transformerMap
    rcases hcase with ⟨hnone, -⟩ | ⟨err, f, -, hr⟩ | ⟨f, fileMap, -, hr⟩
    · rw [hf] at hnone; cases hnone
    · rw [hr]; rfl
    · rw [hr]; rfl
  · intro err herr
    obtain ⟨s, hs'⟩ := Outcome.err?_eq_some _ err herr
    obtain ⟨f, hf', hcase⟩ :=
      loadDataFromFile_error_inv env h s tarContent readData transformerMap err hs'
    rw [hf] at hf'
    cases hf'
    exact hcase
  · intro fileMap ht hdec
    have hload := loadDataFromFile_of_none env h tarContent readData transformerMap _ hf ht
    rw [hload, indexData_eq_put env _ tarContent.Name _ _ readData fileMap hdec]
    refine ⟨rfl, ?_⟩
    simp only [Outcome.state]
    have hmaps := put_placeKey_maps (h.markSeen tarContent.Name) (env.getGVR ty)
      { name := strings.TrimSuffix file ".json", ns := ns,
        additionalAuthenticatedData := ns ++ "#" ++ strings.TrimSuffix file ".json",
        gvrStr := ty } tarContent.Name fileMap
    cases hcrd : strings.EqualFold (env.getGVR ty).Resource "customresourcedefinitions" with
    | true =>
      left
      rw [(hmaps.1 hcrd).1, Function.update_same]
    | false =>
      by_cases hnsE : ns = ""
      · right; right
        rw [(hmaps.2.2 hcrd hnsE).1, hnsE, Function.update_same]
      · right; left
        rw [(hmaps.2.1 hcrd hnsE).1, Function.update_same]

/-- C7 amended, on the four-segment path of the counterexample. -/
theorem long_path_is_namespaced_witness :
    4 ≤ (strings.Split "serviceaccounts.#v1/cattle-system/extra/cattle.json" "/").length ∧
      ∃ ty ns file rest,
        strings.Split "serviceaccounts.#v1/cattle-system/extra/cattle.json" "/" =
          ty :: ns :: file :: rest ∧
        pathFields "serviceaccounts.#v1/cattle-system/extra/cattle.json" = some
          { name := strings.TrimSuffix file ".json", ns := ns,
            additionalAuthenticatedData := ns ++ "#" ++ strings.TrimSuffix file ".json",
            gvrStr := ty } :=
  ⟨by decide,
   match long_path_is_namespaced (demoEnv []) emptyHandler
      (regularHeader "serviceaccounts.#v1/cattle-system/extra/cattle.json")
      (bytesOf "\x7b\x7d") noTransformers (by decide) with
   | ⟨ty, ns, file, rest, h1, h2, _⟩ => ⟨ty, ns, file, rest, h1, h2⟩⟩

/-- A path with a single segment (no `/`) makes `loadDataFromFile` panic on
`splitPath[2]`, after the path has been marked as seen. -/
theorem loadDataFromFile_one_segment_panics {Obj RS SS : Type} (env : Env Obj RS SS)
    (h : handler Obj RS SS) (tarContent : Header) (readData : Bytes)
    (transformerMap : TransformerMap) (seg : String)
    (hsplit : strings.Split tarContent.Name "/" = [seg]) :
    loadDataFromFile env h tarContent readData transformerMap =
      .panic (h.markSeen tarContent.Name) :=
  loadDataFromFile_of_no_fields env h tarContent readData transformerMap
    (pathFields_of_one tarContent.Name seg hsplit)

/-- C8 fails: a custom resource definition stored under a three-segment
path has the namespace `default` in its path, `loadDataFromFile` returns
`nil` on it, and no map holds the key with that namespace: the key written
to the CRD map has the empty namespace. -/
theorem crd_key_has_no_namespace :
    pathFields "customresourcedefinitions.apiextensions.k8s.io#v1/default/foos.json" = some
        { name := "foos", ns := "default", additionalAuthenticatedData := "default#foos",
          gvrStr := "customresourcedefinitions.apiextensions.k8s.io#v1" } ∧
      (loadDataFromFile (demoEnv []) emptyHandler
          (regularHeader "customresourcedefinitions.apiextensions.k8s.io#v1/default/foos.json")
          (bytesOf "\x7b\x7d") noTransformers).isOk = true ∧
      (loadDataFromFile (demoEnv []) emptyHandler
          (regularHeader "customresourcedefinitions.apiextensions.k8s.io#v1/default/foos.json")
          (bytesOf "\x7b\x7d") noTransformers).state.crdInfoToData
          { Name := "foos", Namespace := "default",
            GVR := specGVR "customresourcedefinitions.apiextensions.k8s.io#v1",
            ConfigPath := "customresourcedefinitions.apiextensions.k8s.io#v1/default/foos.json" }
        = none ∧
      (loadDataFromFile (demoEnv []) emptyHandler
          (regularHeader "customresourcedefinitions.apiextensions.k8s.io#v1/default/foos.json")
          (bytesOf "\x7b\x7d") noTransformers).state.namespacedResourceInfoToData
          { Name := "foos", Namespace := "default",
            GVR := specGVR "customresourcedefinitions.apiextensions.k8s.io#v1",
            ConfigPath := "customresourcedefinitions.apiextensions.k8s.io#v1/default/foos.json" }
        = none ∧
      (loadDataFromFile (demoEnv []) emptyHandler
          (regularHeader "customresourcedefinitions.apiextensions.k8s.io#v1/default/foos.json")
          (bytesOf "\x7b\x7d") noTransformers).state.clusterscopedResourceInfoToData
          { Name := "foos", Namespace := "default",
            GVR := specGVR "customresourcedefinitions.apiextensions.k8s.io#v1",
            ConfigPath := "customresourcedefinitions.apiextensions.k8s.io#v1/default/foos.json" }
        = none ∧
      (loadDataFromFile (demoEnv []) emptyHandler
          (regularHeader "customresourcedefinitions.apiextensions.k8s.io#v1/default/foos.json")
          (bytesOf "\x7b\x7d") noTransformers).state.crdInfoToData
          { Name := "foos", Namespace := "",
            GVR := specGVR "customresourcedefinitions.apiextensions.k8s.io#v1",
            ConfigPath := "customresourcedefinitions.apiextensions.k8s.io#v1/default/foos.json" }
        = some (bytesOf "\x7b\x7d") := by
  decide

/-- C8, amended: when `loadDataFromFile` returns `nil`, exactly one map was
written and the two others are as before: the CRD map when `gvr.Resource` is
`customresourcedefinitions` up to case, else the namespaced map when
the namespace read off the path is not empty, else the cluster-scoped map.  The
value is the JSON object decoded from the clear bytes (the raw bytes, or
the transformer's output when one is registered).  The key has the name,
the resource type and the entry path; its namespace is the one read off the
path in the namespaced and cluster-scoped maps and is empty in the CRD
map. -/
theorem indexer_placement {Obj RS SS : Type} (env : Env Obj RS SS) (h h' : handler Obj RS SS)
    (tarContent : Header) (readData : Bytes) (transformerMap : TransformerMap)
    (hok : loadDataFromFile env h tarContent readData transformerMap = .ok h') :
    ∃ (f : PathFields) (fileMap : Obj) (clear : Bytes),
      pathFields tarContent.Name = some f ∧
      env.unmarshalObject clear = .ok fileMap ∧
      (transformerMap (env.getGVR f.gvrStr).GroupResource = none → clear = readData) ∧
      (∀ t, transformerMap (env.getGVR f.gvrStr).GroupResource = some t →
        ∃ enc, env.unmarshalBytes readData = .ok enc ∧
          t enc f.additionalAuthenticatedData = .ok clear) ∧
      (strings.EqualFold (env.getGVR f.gvrStr).Resource "customresourcedefinitions" = true →
        h'.crdInfoToData =
            Function.update h.crdInfoToData
              { Name := f.name, Namespace := "", GVR := env.getGVR f.gvrStr,
                ConfigPath := tarContent.Name } (some fileMap) ∧
          h'.namespacedResourceInfoToData = h.namespacedResourceInfoToData ∧
          h'.clusterscopedResourceInfoToData = h.clusterscopedResourceInfoToData) ∧
      (strings.EqualFold (env.getGVR f.gvrStr).Resource "customresourcedefinitions" = false →
        f.ns ≠ "" →
        h'.namespacedResourceInfoToData =
            Function.update h.namespacedResourceInfoToData
              { Name := f.name, Namespace := f.ns, GVR := env.getGVR f.gvrStr,
                ConfigPath := tarContent.Name } (some fileMap) ∧
          h'.crdInfoToData = h.crdInfoToData ∧
          h'.clusterscopedResourceInfoToData = h.clusterscopedResourceInfoToData) ∧
      (strings.EqualFold (env.getGVR f.gvrStr).Resource "customresourcedefinitions" = false →
        f.ns = "" →
        h'.clusterscopedResourceInfoToData =
            Function.update h.clusterscopedResourceInfoToData
              { Name := f.name, Namespace := f.ns, GVR := env.getGVR f.gvrStr,
                ConfigPath := tarContent.Name } (some fileMap) ∧
          h'.crdInfoToData = h.crdInfoToData ∧
          h'.namespacedResourceInfoToData = h.namespacedResourceInfoToData) := by
  obtain ⟨f, fileMap, clear, h1, hf, hobj, hraw, henc, hpart, -, hput⟩ :=
    loadDataFromFile_ok_inv env h h' tarContent readData transformerMap hok
  have hmaps := put_placeKey_maps h1 (env.getGVR f.gvrStr) f tarContent.Name fileMap
  rw [← hput] at hmaps
  have e1 : h1.crdInfoToData = h.crdInfoToData := hpart .crd
  have e2 : h1.namespacedResourceInfoToData = h.namespacedResourceInfoToData :=
    hpart .namespaced
  have e3 : h1.clusterscopedResourceInfoToData = h.clusterscopedResourceInfoToData :=
    hpart .clusterscoped
  rw [e1, e2, e3] at hmaps
  exact ⟨f, fileMap, clear, hf, hobj, hraw, henc, hmaps⟩

/-- C8 amended, on the service account of the spec: it is stored in
the namespaced map under the name `cattle` and the namespace `cattle-system`. -/
theorem indexer_placement_witness :
    (loadDataFromFile (demoEnv []) emptyHandler
          (regularHeader "serviceaccounts.#v1/cattle-system/cattle.json")
          (bytesOf "\x7b\"kind\":\"ServiceAccount\"\x7d")
          noTransformers).state.namespacedResourceInfoToData
          { Name := "cattle", Namespace := "cattle-system",
            GVR := { Group := "", Version := "v1", Resource := "serviceaccounts" },
            ConfigPath := "serviceaccounts.#v1/cattle-system/cattle.json" }
        = some (bytesOf "\x7b\"kind\":\"ServiceAccount\"\x7d") ∧
      ∃ (f : PathFields) (fileMap : Bytes),
        pathFields "serviceaccounts.#v1/cattle-system/cattle.json" = some f ∧
        demoObject (bytesOf "\x7b\"kind\":\"ServiceAccount\"\x7d") = .ok fileMap :=
  ⟨by decide,
   match indexer_placement (demoEnv []) emptyHandler
      (loadDataFromFile (demoEnv []) emptyHandler
        (regularHeader "serviceaccounts.#v1/cattle-system/cattle.json")
        (bytesOf "\x7b\"kind\":\"ServiceAccount\"\x7d") noTransformers).state
      (regularHeader "serviceaccounts.#v1/cattle-system/cattle.json")
      (bytesOf "\x7b\"kind\":\"ServiceAccount\"\x7d") noTransformers rfl with
   | ⟨f, fileMap, _, hf, hobj, hraw, _⟩ => ⟨f, fileMap, hf, by rw [← hraw rfl]; exact hobj⟩⟩

/-! ## The retriever -/

/-- C6 fails: with an empty backup file name and an object store whose
client cannot be built, `downloadFromS3` has called `GetS3Client` and returns
that call's error, not the empty-backup-name error. -/
theorem empty_name_reaches_client :
    unnamedRestore.Spec.BackupFilename = "" ∧
      downloadFromS3 failingStore unnamedRestore demoBucket "cattle-resources-system" =
        (.error "secrets \"s3-creds\" not found",
          [.getS3Client demoBucket "cattle-resources-system"]) ∧
      (downloadFromS3 failingStore unnamedRestore demoBucket "cattle-resources-system").1 ≠
        .error "empty backup name" := by
  refine ⟨rfl, rfl, ?_⟩
  intro h
  have h2 : ("secrets \"s3-creds\" not found" : String) = "empty backup name" :=
    Except.error.inj h
  exact absurd h2 (by decide)

/-- C6, amended: with an empty backup file name, `downloadFromS3` calls
`GetS3Client` once and never calls `DownloadFromS3WithPrefix`; it returns the
error of `GetS3Client` when that call fails and the empty-backup-name error
when it succeeds. -/
theorem empty_name_after_client {Client : Type} (store : ObjectStore Client)
    (restore : v1.Restore) (objStore : v1.S3ObjectStore) (ns : String)
    (hempty : restore.Spec.BackupFilename = "") :
    (downloadFromS3 store restore objStore ns).2 = [.getS3Client objStore ns] ∧
      (∀ err, store.GetS3Client objStore ns = .error err →
        (downloadFromS3 store restore objStore ns).1 = .error err) ∧
      (∀ s3Client, store.GetS3Client objStore ns = .ok s3Client →
        (downloadFromS3 store restore objStore ns).1 = .error "empty backup name") := by
  refine ⟨?_, ?_, ?_⟩
  · unfold downloadFromS3
    cases store.GetS3Client objStore ns with
    | error err => rfl
    | ok s3Client => simp [hempty]
  · intro err herr
    simp only [downloadFromS3, herr]
  · intro s3Client hok
    simp [downloadFromS3, hok, hempty]

/-- C6 amended, on an object store whose client is built: the one call is
`GetS3Client` and the result is the empty-backup-name error. -/
theorem empty_name_after_client_witness :
    unnamedRestore.Spec.BackupFilename = "" ∧
      (downloadFromS3 workingStore unnamedRestore demoBucket "cattle-resources-system").2 =
        [.getS3Client demoBucket "cattle-resources-system"] ∧
      (downloadFromS3 workingStore unnamedRestore demoBucket "cattle-resources-system").1 =
        .error "empty backup name" :=
  ⟨rfl,
   (empty_name_after_client workingStore unnamedRestore demoBucket "cattle-resources-system"
      rfl).1,
   (empty_name_after_client workingStore unnamedRestore demoBucket "cattle-resources-system"
      rfl).2.2 () rfl⟩

/-! ## Control files -/

/-- C9: for a regular file whose path contains `filters`, the step of
`LoadFromTarGzip` does not go through `loadDataFromFile`: it is the same for
every transformer map, it leaves the three maps, `resourcesFromBackup` and the
record of transformer calls as they were, and it does not panic.  When the
path contains `filters.json` the body is decoded into `backupResourceSet`, and
an error of that decoding is returned (wrapped) and ends the load.  When the
path contains `statussubresource.json` (and the first decoding did not fail)
the body is decoded into `resourcesWithStatusSubresource`, and an error of
that decoding is returned (wrapped) and ends the load.  An accumulator whose
file name is not in the path is left as it was. -/
theorem control_file_routing {Obj RS SS : Type} (env : Env Obj RS SS)
    (transformerMap : TransformerMap) (h : handler Obj RS SS) (tarContent : Header)
    (readData : Bytes) (hreg : tarContent.Typeflag = TypeReg)
    (hfilters : strings.Contains tarContent.Name "filters" = true) :
    (∀ other : TransformerMap,
        loadRecord env transformerMap h (.file tarContent (.ok readData)) =
          loadRecord env other h (.file tarContent (.ok readData))) ∧
      ((loadRecord env transformerMap h (.file tarContent (.ok readData))).state.crdInfoToData =
          h.crdInfoToData ∧
        (loadRecord env transformerMap h
            (.file tarContent (.ok readData))).state.namespacedResourceInfoToData =
          h.namespacedResourceInfoToData ∧
        (loadRecord env transformerMap h
            (.file tarContent (.ok readData))).state.clusterscopedResourceInfoToData =
          h.clusterscopedResourceInfoToData ∧
        (loadRecord env transformerMap h
            (.file tarContent (.ok readData))).state.resourcesFromBackup =
          h.resourcesFromBackup ∧
        (loadRecord env transformerMap h (.file tarContent (.ok readData))).state.transformCalls =
          h.transformCalls ∧
        (loadRecord env transformerMap h (.file tarContent (.ok readData))).isPanic = false) ∧
      (strings.Contains tarContent.Name "filters.json" = true →
        (loadRecord env transformerMap h
            (.file tarContent (.ok readData))).state.backupResourceSet =
          (env.unmarshalResourceSet readData h.backupResourceSet).1 ∧
        ∀ err, (env.unmarshalResourceSet readData h.backupResourceSet).2 = some err →
          (loadRecord env transformerMap h (.file tarContent (.ok readData))).err? =
            some ("error unmarshaling backup filters file: " ++ err)) ∧
      (strings.Contains tarContent.Name "filters.json" = false →
        (loadRecord env transformerMap h
            (.file tarContent (.ok readData))).state.backupResourceSet = h.backupResourceSet) ∧
      (strings.Contains tarContent.Name "statussubresource.json" = true →
        (strings.Contains tarContent.Name "filters.json" = true →
          (env.unmarshalResourceSet readData h.backupResourceSet).2 = none) →
        (loadRecord env transformerMap h
            (.file tarContent (.ok readData))).state.resourcesWithStatusSubresource =
          (env.unmarshalStatusSubresource readData h.resourcesWithStatusSubresource).1 ∧
        ∀ err,
          (env.unmarshalStatusSubresource readData h.resourcesWithStatusSubresource).2 =
            some err →
          (loadRecord env transformerMap h (.file tarContent (.ok readData))).err? =
            some ("error unmarshaling status subresource info file: " ++ err)) ∧
      (strings.Contains tarContent.Name "statussubresource.json" = false →
        (loadRecord env transformerMap h
            (.file tarContent (.ok readData))).state.resourcesWithStatusSubresource =
          h.resourcesWithStatusSubresource) ∧
      ((strings.Contains tarContent.Name "filters.json" = true →
          (env.unmarshalResourceSet readData h.backupResourceSet).2 = none) →
        (strings.Contains tarContent.Name "statussubresource.json" = true →
          (env.unmarshalStatusSubresource readData h.resourcesWithStatusSubresource).2 =
            none) →
        (loadRecord env transformerMap h (.file tarContent (.ok readData))).isOk = true) ∧
      (∀ rest,
        (loadRecord env transformerMap h (.file tarContent (.ok readData))).isOk = false →
        loadRecords env transformerMap h (.file tarContent (.ok readData) :: rest) =
          loadRecord env transformerMap h (.file tarContent (.ok readData))) := by
  have hctl := loadRecord_control env transformerMap h tarContent readData hreg hfilters
  refine ⟨?_, ?_, ?_, ?_, ?_, ?_, ?_, ?_⟩
  · intro other
    rw [hctl, loadRecord_control env other h tarContent readData hreg hfilters]
  · rw [hctl]
    exact loadControlFile_frame env h tarContent readData
  · intro hfj
    rw [hctl]
    unfold loadControlFile
    simp only [hfj, if_true]
    cases (env.unmarshalResourceSet readData h.backupResourceSet).2 with
    | some e => simp [Outcome.state, Outcome.err?]
    | none =>
      simp only
      split <;> simp [Outcome.state]
  · intro hfj
    rw [hctl]
    unfold loadControlFile
    simp only [hfj, Bool.false_eq_true, if_false]
    split <;> rfl
  · intro hss hfirst
    rw [hctl]
    unfold loadControlFile
    have h1 : (if strings.Contains tarContent.Name "filters.json" = true then
        env.unmarshalResourceSet readData h.backupResourceSet
        else (h.backupResourceSet, none)).2 = none := by
      split
      · rename_i hfj; exact hfirst hfj
      · rfl
    simp only [h1, hss, if_true]
    cases (env.unmarshalStatusSubresource readData h.resourcesWithStatusSubresource).2 with
    | some e => simp [Outcome.state, Outcome.err?]
    | none => simp [Outcome.state]
  · intro hss
    rw [hctl]
    unfold loadControlFile
    simp only [hss, Bool.false_eq_true, if_false]
    split <;> rfl
  · intro hfirst hsecond
    rw [hctl]
    unfold loadControlFile
    have h1 : (if strings.Contains tarContent.Name "filters.json" = true then
        env.unmarshalResourceSet readData h.backupResourceSet
        else (h.backupResourceSet, none)).2 = none := by
      split
      · rename_i hfj; exact hfirst hfj
      · rfl
    have h2 : (if strings.Contains tarContent.Name "statussubresource.json" = true then
        env.unmarshalStatusSubresource readData h.resourcesWithStatusSubresource
        else (h.resourcesWithStatusSubresource, none)).2 = none := by
      split
      · rename_i hss; exact hsecond hss
      · rfl
    simp only [h1, h2]
    rfl
  · intro rest hnot
    unfold loadRecords
    cases hr : loadRecord env transformerMap h (.file tarContent (.ok readData)) with
    | ok h1 => rw [hr] at hnot; cases hnot
    | error err h1 => rfl
    | panic h1 => rfl

/-- C9, on the entry `filters.json` with body `{"included":["pods"]}`:
`backupResourceSet` receives the decoded body and nothing is indexed or
marked as seen. -/
theorem control_file_routing_witness :
    ((regularHeader "filters.json").Typeflag = TypeReg ∧
        strings.Contains (regularHeader "filters.json").Name "filters" = true) ∧
      (loadRecord (demoEnv []) noTransformers emptyHandler
          (regularFile "filters.json" "\x7b\"included\":[\"pods\"]\x7d")).state.backupResourceSet
        = some (bytesOf "\x7b\"included\":[\"pods\"]\x7d") ∧
      (loadRecord (demoEnv []) noTransformers emptyHandler
          (regularFile "filters.json" "\x7b\"included\":[\"pods\"]\x7d")).isOk = true ∧
      ((loadRecord (demoEnv []) noTransformers emptyHandler
            (regularFile "filters.json"
              "\x7b\"included\":[\"pods\"]\x7d")).state.crdInfoToData =
          emptyHandler.crdInfoToData ∧
        (loadRecord (demoEnv []) noTransformers emptyHandler
            (regularFile "filters.json"
              "\x7b\"included\":[\"pods\"]\x7d")).state.namespacedResourceInfoToData =
          emptyHandler.namespacedResourceInfoToData ∧
        (loadRecord (demoEnv []) noTransformers emptyHandler
            (regularFile "filters.json"
              "\x7b\"included\":[\"pods\"]\x7d")).state.clusterscopedResourceInfoToData =
          emptyHandler.clusterscopedResourceInfoToData ∧
        (loadRecord (demoEnv []) noTransformers emptyHandler
            (regularFile "filters.json"
              "\x7b\"included\":[\"pods\"]\x7d")).state.resourcesFromBackup =
          emptyHandler.resourcesFromBackup ∧
        (loadRecord (demoEnv []) noTransformers emptyHandler
            (regularFile "filters.json"
              "\x7b\"included\":[\"pods\"]\x7d")).state.transformCalls =
          emptyHandler.transformCalls ∧
        (loadRecord (demoEnv []) noTransformers emptyHandler
            (regularFile "filters.json"
              "\x7b\"included\":[\"pods\"]\x7d")).isPanic = false) :=
  ⟨⟨rfl, by decide⟩, by decide, by decide,
   (control_file_routing (demoEnv []) noTransformers emptyHandler
      (regularHeader "filters.json") (bytesOf "\x7b\"included\":[\"pods\"]\x7d")
      rfl (by decide)).2.1⟩

/-! ## The loop of `LoadFromTarGzip` -/

section
variable {Obj RS SS : Type}

theorem loadRecords_cons_ok (env : Env Obj RS SS) (transformerMap : TransformerMap)
    (h h1 : handler Obj RS SS) (r : TarRecord) (rs : List TarRecord)
    (hr : loadRecord env transformerMap h r = .ok h1) :
    loadRecords env transformerMap h (r :: rs) = loadRecords env transformerMap h1 rs := by
  simp only [loadRecords, hr]

theorem loadRecords_cons_error (env : Env Obj RS SS) (transformerMap : TransformerMap)
    (h h1 : handler Obj RS SS) (r : TarRecord) (rs : List TarRecord) (err : GoError)
    (hr : loadRecord env transformerMap h r = .error err h1) :
    loadRecords env transformerMap h (r :: rs) = .error err h1 := by
  simp only [loadRecords, hr]

theorem loadRecords_cons_panic (env : Env Obj RS SS) (transformerMap : TransformerMap)
    (h h1 : handler Obj RS SS) (r : TarRecord) (rs : List TarRecord)
    (hr : loadRecord env transformerMap h r = .panic h1) :
    loadRecords env transformerMap h (r :: rs) = .panic h1 := by
  simp only [loadRecords, hr]

/-- Records that follow a successful run are processed from the handler that
run left. -/
theorem loadRecords_append_ok (env : Env Obj RS SS) (transformerMap : TransformerMap)
    (pre post : List TarRecord) (h h1 : handler Obj RS SS)
    (hpre : loadRecords env transformerMap h pre = .ok h1) :
    loadRecords env transformerMap h (pre ++ post) = loadRecords env transformerMap h1 post := by
  induction pre generalizing h with
  | nil =>
    simp only [loadRecords, Outcome.ok.injEq] at hpre
    rw [hpre, List.nil_append]
  | cons r rs ih =>
    cases hr : loadRecord env transformerMap h r with
    | ok h2 =>
      rw [loadRecords_cons_ok env transformerMap h h2 r rs hr] at hpre
      rw [List.cons_append, loadRecords_cons_ok env transformerMap h h2 r _ hr]
      exact ih h2 hpre
    | error err h2 =>
      rw [loadRecords_cons_error env transformerMap h h2 r rs err hr] at hpre
      cases hpre
    | panic h2 =>
      rw [loadRecords_cons_panic env transformerMap h h2 r rs hr] at hpre
      cases hpre

/-- The loop returns an error exactly at the first record whose step returns
one, with the error and the handler of that step. -/
theorem loadRecords_error_iff (env : Env Obj RS SS) (transformerMap : TransformerMap)
    (rs : List TarRecord) (h h' : handler Obj RS SS) (err : GoError) :
    loadRecords env transformerMap h rs = .error err h' ↔
      ∃ pre r post h1, rs = pre ++ r :: post ∧
        loadRecords env transformerMap h pre = .ok h1 ∧
        loadRecord env transformerMap h1 r = .error err h' := by
  constructor
  · intro hrun
    induction rs generalizing h with
    | nil => simp only [loadRecords] at hrun; cases hrun
    | cons r rs ih =>
      cases hr : loadRecord env transformerMap h r with
      | ok h2 =>
        rw [loadRecords_cons_ok env transformerMap h h2 r rs hr] at hrun
        obtain ⟨pre, r', post, h1, hsplit, hpre, hstep⟩ := ih h2 hrun
        refine ⟨r :: pre, r', post, h1, by rw [hsplit, List.cons_append], ?_, hstep⟩
        rw [loadRecords_cons_ok env transformerMap h h2 r pre hr]
        exact hpre
      | error e h2 =>
        rw [loadRecords_cons_error env transformerMap h h2 r rs e hr] at hrun
        exact ⟨[], r, rs, h, rfl, rfl, hr.trans hrun⟩
      | panic h2 =>
        rw [loadRecords_cons_panic env transformerMap h h2 r rs hr] at hrun
        cases hrun
  · rintro ⟨pre, r, post, h1, hsplit, hpre, hstep⟩
    rw [hsplit, loadRecords_append_ok env transformerMap pre (r :: post) h h1 hpre]
    exact loadRecords_cons_error env transformerMap h1 h' r post err hstep

/-- A step that returns an error leaves the three maps as they were. -/
theorem loadRecord_error_part (env : Env Obj RS SS) (transformerMap : TransformerMap)
    (h h' : handler Obj RS SS) (r : TarRecord) (err : GoError)
    (hstep : loadRecord env transformerMap h r = .error err h') (p : Partition) :
    h'.part p = h.part p := by
  cases r with
  | nextError e =>
    rw [loadRecord_nextError] at hstep
    injection hstep with _ hh
    rw [← hh]
  | file tarContent body =>
    by_cases hreg : tarContent.Typeflag = TypeReg
    · cases body with
      | error e =>
        rw [loadRecord_read_error env transformerMap h tarContent e hreg] at hstep
        injection hstep with _ hh
        rw [← hh]
      | ok readData =>
        cases hfilters : strings.Contains tarContent.Name "filters" with
        | true =>
          have hp := loadControlFile_part env h tarContent readData p
          rw [← loadRecord_control env transformerMap h tarContent readData hreg hfilters,
            hstep] at hp
          exact hp
        | false =>
          rw [loadRecord_resource env transformerMap h tarContent readData hreg hfilters]
            at hstep
          obtain ⟨h2, hpart, -, -, -, hcase⟩ :=
            loadDataFromFile_outcome env h tarContent readData transformerMap
          rw [hstep] at hcase
          rcases hcase with ⟨-, hr⟩ | ⟨e, f, -, hr⟩ | ⟨f, fileMap, -, hr⟩
          · cases hr
          · injection hr with _ hh
            rw [hh]
            exact hpart p
          · cases hr
    · rw [loadRecord_not_regular env transformerMap h tarContent body hreg] at hstep
      cases hstep

theorem put_resourcesFromBackup (h : handler Obj RS SS) (p : Partition) (k : objInfo)
    (v : Obj) : (h.put p k v).resourcesFromBackup = h.resourcesFromBackup := by
  cases p <;> rfl

/-- A step that returns `nil` keeps every key of the maps and every path
marked as seen. -/
theorem loadRecord_ok_keeps (env : Env Obj RS SS) (transformerMap : TransformerMap)
    (h h' : handler Obj RS SS) (r : TarRecord)
    (hstep : loadRecord env transformerMap h r = .ok h') :
    (∀ p k, h.part p k ≠ none → h'.part p k ≠ none) ∧
      ∀ x, h.resourcesFromBackup x = true → h'.resourcesFromBackup x = true := by
  cases r with
  | nextError e => rw [loadRecord_nextError] at hstep; cases hstep
  | file tarContent body =>
    by_cases hreg : tarContent.Typeflag = TypeReg
    · cases body with
      | error e =>
        rw [loadRecord_read_error env transformerMap h tarContent e hreg] at hstep
        cases hstep
      | ok readData =>
        cases hfilters : strings.Contains tarContent.Name "filters" with
        | true =>
          have hctl := loadRecord_control env transformerMap h tarContent readData hreg hfilters
          have hframe := loadControlFile_frame env h tarContent readData
          rw [← hctl, hstep] at hframe
          constructor
          · intro p k hk
            have hp := loadControlFile_part env h tarContent readData p
            rw [← hctl, hstep] at hp
            have hp' : h'.part p = h.part p := hp
            rw [hp']
            exact hk
          · intro x hx
            have h4 : h'.resourcesFromBackup = h.resourcesFromBackup := hframe.2.2.2.1
            rw [h4]
            exact hx
        | false =>
          rw [loadRecord_resource env transformerMap h tarContent readData hreg hfilters]
            at hstep
          obtain ⟨f, fileMap, clear, h1, -, -, -, -, hpart, hseen, hput⟩ :=
            loadDataFromFile_ok_inv env h h' tarContent readData transformerMap hstep
          constructor
          · intro p k hk
            rw [hput, part_put]
            split
            · simp
            · rw [hpart p]; exact hk
          · intro x hx
            rw [hput, put_resourcesFromBackup, hseen, Function.update_apply]
            split
            · rfl
            · exact hx
    · rw [loadRecord_not_regular env transformerMap h tarContent body hreg] at hstep
      injection hstep with hh
      rw [← hh]
      exact ⟨fun _ _ hk => hk, fun _ hx => hx⟩

theorem loadRecords_ok_keeps (env : Env Obj RS SS) (transformerMap : TransformerMap)
    (rs : List TarRecord) (h h' : handler Obj RS SS)
    (hrun : loadRecords env transformerMap h rs = .ok h') :
    (∀ p k, h.part p k ≠ none → h'.part p k ≠ none) ∧
      ∀ x, h.resourcesFromBackup x = true → h'.resourcesFromBackup x = true := by
  induction rs generalizing h with
  | nil =>
    simp only [loadRecords, Outcome.ok.injEq] at hrun
    rw [← hrun]
    exact ⟨fun _ _ hk => hk, fun _ hx => hx⟩
  | cons r rs ih =>
    cases hr : loadRecord env transformerMap h r with
    | ok h2 =>
      rw [loadRecords_cons_ok env transformerMap h h2 r rs hr] at hrun
      have h1 := loadRecord_ok_keeps env transformerMap h h2 r hr
      have h3 := ih h2 hrun
      exact ⟨fun p k hk => h3.1 p k (h1.1 p k hk), fun x hx => h3.2 x (h1.2 x hx)⟩
    | error err h2 =>
      rw [loadRecords_cons_error env transformerMap h h2 r rs err hr] at hrun
      cases hrun
    | panic h2 =>
      rw [loadRecords_cons_panic env transformerMap h h2 r rs hr] at hrun
      cases hrun

end

/-- C10 fails: on `brokenArchive` the load returns the decoding error of the
second entry, and the handler it leaves has the first entry in the namespaced
map, which was empty before the call. -/
theorem failed_load_keeps_earlier_entries :
    (LoadFromTarGzip (demoEnv brokenArchive) emptyHandler "backup.tar.gz"
        noTransformers).err? = some "json: cannot unmarshal into a JSON object" ∧
      (LoadFromTarGzip (demoEnv brokenArchive) emptyHandler "backup.tar.gz"
        noTransformers).state.namespacedResourceInfoToData
          { Name := "cattle", Namespace := "cattle-system",
            GVR := { Group := "", Version := "v1", Resource := "serviceaccounts" },
            ConfigPath := "serviceaccounts.#v1/cattle-system/cattle.json" }
        = some (bytesOf "\x7b\"kind\":\"ServiceAccount\"\x7d") ∧
      emptyHandler.namespacedResourceInfoToData
          { Name := "cattle", Namespace := "cattle-system",
            GVR := { Group := "", Version := "v1", Resource := "serviceaccounts" },
            ConfigPath := "serviceaccounts.#v1/cattle-system/cattle.json" }
        = none := by
  decide

/-- C10, amended: on an archive that opens, `LoadFromTarGzip` returns an
error exactly when the step of some record returns one after every record
before it was processed without error; the error and the handler are those
of that step, so no later record is processed.  Nothing is rolled back: the
three maps are then as the records before the failing one left them. -/
theorem load_stops_at_first_error {Obj RS SS : Type} (env : Env Obj RS SS)
    (h : handler Obj RS SS) (tarGzFilePath : String) (transformerMap : TransformerMap)
    (tarball : List TarRecord) (hopen : env.openTarGz tarGzFilePath = .ok (.ok tarball))
    (err : GoError) (h' : handler Obj RS SS) :
    (LoadFromTarGzip env h tarGzFilePath transformerMap = .error err h' ↔
        ∃ pre r post h1, tarball = pre ++ r :: post ∧
          loadRecords env transformerMap h pre = .ok h1 ∧
          loadRecord env transformerMap h1 r = .error err h') ∧
      ∀ pre r post h1, tarball = pre ++ r :: post →
        loadRecords env transformerMap h pre = .ok h1 →
        loadRecord env transformerMap h1 r = .error err h' →
        LoadFromTarGzip env h tarGzFilePath transformerMap = .error err h' ∧
          h'.crdInfoToData = h1.crdInfoToData ∧
          h'.namespacedResourceInfoToData = h1.namespacedResourceInfoToData ∧
          h'.clusterscopedResourceInfoToData = h1.clusterscopedResourceInfoToData := by
  have hload : LoadFromTarGzip env h tarGzFilePath transformerMap =
      loadRecords env transformerMap h tarball := by
    simp only [LoadFromTarGzip, hopen]
  rw [hload]
  refine ⟨loadRecords_error_iff env transformerMap tarball h h' err, ?_⟩
  intro pre r post h1 hsplit hpre hstep
  refine ⟨(loadRecords_error_iff env transformerMap tarball h h' err).2
    ⟨pre, r, post, h1, hsplit, hpre, hstep⟩, ?_, ?_, ?_⟩
  · exact loadRecord_error_part env transformerMap h1 h' r err hstep .crd
  · exact loadRecord_error_part env transformerMap h1 h' r err hstep .namespaced
  · exact loadRecord_error_part env transformerMap h1 h' r err hstep .clusterscoped

/-- C10 amended, on `brokenArchive`: the error returned is that of a record
reached after a run without error. -/
theorem load_stops_at_first_error_witness :
    (demoEnv brokenArchive).openTarGz "backup.tar.gz" = .ok (.ok brokenArchive) ∧
      ∃ pre r post h1, brokenArchive = pre ++ r :: post ∧
        loadRecords (demoEnv brokenArchive) noTransformers emptyHandler pre = .ok h1 ∧
        loadRecord (demoEnv brokenArchive) noTransformers h1 r =
          .error "json: cannot unmarshal into a JSON object"
            (LoadFromTarGzip (demoEnv brokenArchive) emptyHandler "backup.tar.gz"
              noTransformers).state :=
  ⟨rfl,
   (load_stops_at_first_error (demoEnv brokenArchive) emptyHandler "backup.tar.gz"
      noTransformers brokenArchive rfl "json: cannot unmarshal into a JSON object"
      (LoadFromTarGzip (demoEnv brokenArchive) emptyHandler "backup.tar.gz"
        noTransformers).state).1.mp rfl⟩

/-- C5 fails: the path of this resource contains `filters` and neither
`filters.json` nor `statussubresource.json`; the load returns `nil` and leaves
the handler exactly as it was: nothing is decoded into an accumulator, no map
has a key for the entry, the path is not marked as seen and there is no
error. -/
theorem filters_named_resource_is_dropped :
    strings.Contains "envoyfilters.networking.istio.io#v1alpha3/istio-system/gzip.json"
        "filters" = true ∧
      strings.Contains "envoyfilters.networking.istio.io#v1alpha3/istio-system/gzip.json"
        "filters.json" = false ∧
      strings.Contains "envoyfilters.networking.istio.io#v1alpha3/istio-system/gzip.json"
        "statussubresource.json" = false ∧
      LoadFromTarGzip (demoEnv envoyFilterArchive) emptyHandler "backup.tar.gz" noTransformers =
        .ok emptyHandler ∧
      emptyHandler.resourcesFromBackup
        "envoyfilters.networking.istio.io#v1alpha3/istio-system/gzip.json" = false ∧
      emptyHandler.backupResourceSet = none ∧
      emptyHandler.resourcesWithStatusSubresource = none ∧
      emptyHandler.namespacedResourceInfoToData
          { Name := "gzip", Namespace := "istio-system",
            GVR := specGVR "envoyfilters.networking.istio.io#v1alpha3",
            ConfigPath := "envoyfilters.networking.istio.io#v1alpha3/istio-system/gzip.json" }
        = none :=
  ⟨by decide, by decide, by decide, rfl, rfl, rfl, rfl, rfl⟩

/-- C5, amended: take a regular file whose body is read, reached after the
records before it were loaded without error from a handler with empty maps.
If its path contains `filters` and one of `filters.json` and
`statussubresource.json`, its body is decoded into the accumulator of that
name.  If its path contains `filters` and neither name, the step returns
`nil` and changes nothing.  If its path does not contain `filters`, the path
is marked in `resourcesFromBackup` however the step ends; the step does not
panic when the path has two segments or more; and when the step returns
`nil`, one key of one map has the path as `ConfigPath` and no other key of any
map has it, which is still so at the end of a load that returns `nil`. -/
theorem entry_completeness {Obj RS SS : Type} (env : Env Obj RS SS)
    (transformerMap : TransformerMap) (h0 h1 : handler Obj RS SS) (pre : List TarRecord)
    (tarContent : Header) (readData : Bytes)
    (hcrd : ∀ k, h0.crdInfoToData k = none)
    (hns : ∀ k, h0.namespacedResourceInfoToData k = none)
    (hcl : ∀ k, h0.clusterscopedResourceInfoToData k = none)
    (hpre : loadRecords env transformerMap h0 pre = .ok h1)
    (hreg : tarContent.Typeflag = TypeReg) :
    (strings.Contains tarContent.Name "filters" = true →
        (strings.Contains tarContent.Name "filters.json" = true ∨
          strings.Contains tarContent.Name "statussubresource.json" = true) →
        (strings.Contains tarContent.Name "filters.json" = true ∧
            (loadRecord env transformerMap h1
                (.file tarContent (.ok readData))).state.backupResourceSet =
              (env.unmarshalResourceSet readData h1.backupResourceSet).1) ∨
          (strings.Contains tarContent.Name "statussubresource.json" = true ∧
            (loadRecord env transformerMap h1
                (.file tarContent (.ok readData))).state.resourcesWithStatusSubresource =
              (env.unmarshalStatusSubresource readData
                h1.resourcesWithStatusSubresource).1)) ∧
      (strings.Contains tarContent.Name "filters" = true →
        strings.Contains tarContent.Name "filters.json" = false →
        strings.Contains tarContent.Name "statussubresource.json" = false →
        loadRecord env transformerMap h1 (.file tarContent (.ok readData)) = .ok h1) ∧
      (strings.Contains tarContent.Name "filters" = false →
        (loadRecord env transformerMap h1
            (.file tarContent (.ok readData))).state.resourcesFromBackup tarContent.Name
          = true ∧
        (2 ≤ (strings.Split tarContent.Name "/").length →
          (loadRecord env transformerMap h1 (.file tarContent (.ok readData))).isPanic
            = false) ∧
        (∀ h2, loadRecord env transformerMap h1 (.file tarContent (.ok readData)) = .ok h2 →
          ∃ p k, k.ConfigPath = tarContent.Name ∧ h2.part p k ≠ none ∧
            ∀ p' k', k'.ConfigPath = tarContent.Name → h2.part p' k' ≠ none →
              p' = p ∧ k' = k) ∧
        ∀ post hf,
          loadRecords env transformerMap h0 (pre ++ .file tarContent (.ok readData) :: post)
            = .ok hf →
          hf.resourcesFromBackup tarContent.Name = true ∧
            ∃ p k, k.ConfigPath = tarContent.Name ∧ hf.part p k ≠ none ∧
              ∀ p' k', k'.ConfigPath = tarContent.Name → hf.part p' k' ≠ none →
                p' = p ∧ k' = k) := by
  have hinv0 : Indexed env h0 := Indexed_of_empty env h0 hcrd hns hcl
  have hinv1 : Indexed env h1 := by
    have := Indexed_loadRecords env transformerMap pre h0 hinv0
    rw [hpre] at this
    exact this
  refine ⟨?_, ?_, ?_⟩
  · intro hfilters hname
    rw [loadRecord_control env transformerMap h1 tarContent readData hreg hfilters]
    cases hfj : strings.Contains tarContent.Name "filters.json" with
    | true =>
      left
      refine ⟨rfl, ?_⟩
      unfold loadControlFile
      simp only [hfj, if_true]
      cases (env.unmarshalResourceSet readData h1.backupResourceSet).2 with
      | some e => simp [Outcome.state]
      | none =>
        simp only
        split <;> simp [Outcome.state]
    | false =>
      right
      rw [hfj] at hname
      have hss : strings.Contains tarContent.Name "statussubresource.json" = true := by
        rcases hname with h | h
        · cases h
        · exact h
      refine ⟨hss, ?_⟩
      unfold loadControlFile
      simp only [hfj, hss, Bool.false_eq_true, if_false, if_true]
      cases (env.unmarshalStatusSubresource readData h1.resourcesWithStatusSubresource).2 with
      | some e => simp [Outcome.state]
      | none => simp [Outcome.state]
  · intro hfilters hfj hss
    rw [loadRecord_control env transformerMap h1 tarContent readData hreg hfilters]
    unfold loadControlFile
    simp only [hfj, hss, Bool.false_eq_true, if_false]
  · intro hfilters
    have hres := loadRecord_resource env transformerMap h1 tarContent readData hreg hfilters
    have hstepkey : ∀ h2,
        loadRecord env transformerMap h1 (.file tarContent (.ok readData)) = .ok h2 →
        h2.resourcesFromBackup tarContent.Name = true ∧
          ∃ p k, k.ConfigPath = tarContent.Name ∧ h2.part p k ≠ none ∧
            entryKey env tarContent.Name = some (p, k) := by
      intro h2 hstep
      rw [hres] at hstep
      obtain ⟨f, fileMap, clear, h3, hf, -, -, -, -, hseen, hput⟩ :=
        loadDataFromFile_ok_inv env h1 h2 tarContent readData transformerMap hstep
      refine ⟨?_, (placeKey (env.getGVR f.gvrStr) f tarContent.Name).1,
        (placeKey (env.getGVR f.gvrStr) f tarContent.Name).2,
        placeKey_configPath _ _ _, ?_, ?_⟩
      · rw [hput, put_resourcesFromBackup, hseen, Function.update_same]
      · rw [hput, part_put]
        simp
      · simp only [entryKey, hf, Option.map_some']
    have huniq : ∀ (hx : handler Obj RS SS), Indexed env hx → ∀ p k,
        entryKey env tarContent.Name = some (p, k) →
        ∀ p' k', k'.ConfigPath = tarContent.Name → hx.part p' k' ≠ none →
          p' = p ∧ k' = k := by
      intro hx hinvx p k hkey p' k' hpath hk'
      have e := hinvx p' k' hk'
      rw [hpath, hkey] at e
      injection e with e
      injection e with e1 e2
      exact ⟨e1.symm, e2.symm⟩
    refine ⟨?_, ?_, ?_, ?_⟩
    · rw [hres]
      obtain ⟨h2, -, hseen, -, -, hcase⟩ :=
        loadDataFromFile_outcome env h1 tarContent readData transformerMap
      rcases hcase with ⟨-, hr⟩ | ⟨e, f, -, hr⟩ | ⟨f, fileMap, -, hr⟩
      · rw [hr]
        simp only [Outcome.state, hseen, Function.update_same]
      · rw [hr]
        simp only [Outcome.state, hseen, Function.update_same]
      · rw [hr]
        simp only [Outcome.state, put_resourcesFromBackup, hseen, Function.update_same]
    · intro hlen
      rw [hres]
      obtain ⟨h2, -, -, -, -, hcase⟩ :=
        loadDataFromFile_outcome env h1 tarContent readData transformerMap
      rcases hcase with ⟨hnone, -⟩ | ⟨e, f, -, hr⟩ | ⟨f, fileMap, -, hr⟩
      · have hsome := (pathFields_isSome_iff tarContent.Name).2 hlen
        rw [hnone] at hsome
        cases hsome
      · rw [hr]; rfl
      · rw [hr]; rfl
    · intro h2 hstep
      obtain ⟨-, p, k, hpath, hk, hkey⟩ := hstepkey h2 hstep
      have hinv2 : Indexed env h2 := by
        have := Indexed_loadRecord env transformerMap h1 (.file tarContent (.ok readData)) hinv1
        rw [hstep] at this
        exact this
      exact ⟨p, k, hpath, hk, huniq h2 hinv2 p k hkey⟩
    · intro post hf hrun
      rw [loadRecords_append_ok env transformerMap pre _ h0 h1 hpre] at hrun
      have hinvf : Indexed env hf := by
        have := Indexed_loadRecords env transformerMap
          (.file tarContent (.ok readData) :: post) h1 hinv1
        rw [hrun] at this
        exact this
      cases hstep : loadRecord env transformerMap h1 (.file tarContent (.ok readData)) with
      | ok h2 =>
        rw [loadRecords_cons_ok env transformerMap h1 h2 _ post hstep] at hrun
        obtain ⟨hseen, p, k, hpath, hk, hkey⟩ := hstepkey h2 hstep
        have hkeep := loadRecords_ok_keeps env transformerMap post h2 hf hrun
        exact ⟨hkeep.2 _ hseen, p, k, hpath, hkeep.1 p k hk, huniq hf hinvf p k hkey⟩
      | error e h2 =>
        rw [loadRecords_cons_error env transformerMap h1 h2 _ post e hstep] at hrun
        cases hrun
      | panic h2 =>
        rw [loadRecords_cons_panic env transformerMap h1 h2 _ post hstep] at hrun
        cases hrun

/-- C5 amended, on the service account that follows the filter set in
`demoArchive`: its path is marked as seen by the step that loads it. -/
theorem entry_completeness_witness :
    ((∀ k, emptyHandler.crdInfoToData k = none) ∧
        (regularHeader "serviceaccounts.#v1/cattle-system/cattle.json").Typeflag = TypeReg ∧
        (loadRecords (demoEnv demoArchive) noTransformers emptyHandler
          [regularFile "filters/filters.json" "\x7b\"included\":[\"pods\"]\x7d"]).isOk = true ∧
        strings.Contains "serviceaccounts.#v1/cattle-system/cattle.json" "filters" = false) ∧
      (loadRecord (demoEnv demoArchive) noTransformers
          (loadRecords (demoEnv demoArchive) noTransformers emptyHandler
            [regularFile "filters/filters.json" "\x7b\"included\":[\"pods\"]\x7d"]).state
          (.file (regularHeader "serviceaccounts.#v1/cattle-system/cattle.json")
            (.ok (bytesOf "\x7b\"kind\":\"ServiceAccount\"\x7d")))).state.resourcesFromBackup
        "serviceaccounts.#v1/cattle-system/cattle.json" = true :=
  ⟨⟨fun _ => rfl, rfl, by decide, by decide⟩,
   ((entry_completeness (demoEnv demoArchive) noTransformers emptyHandler
      (loadRecords (demoEnv demoArchive) noTransformers emptyHandler
        [regularFile "filters/filters.json" "\x7b\"included\":[\"pods\"]\x7d"]).state
      [regularFile "filters/filters.json" "\x7b\"included\":[\"pods\"]\x7d"]
      (regularHeader "serviceaccounts.#v1/cattle-system/cattle.json")
      (bytesOf "\x7b\"kind\":\"ServiceAccount\"\x7d")
      (fun _ => rfl) (fun _ => rfl) (fun _ => rfl) rfl rfl).2.2 (by decide)).1⟩

end restore
